import Mathlib

/-!
# PX4-FlightGear bridge: `src/vehicle_state.cpp`

A shallow embedding of `VehicleState` (the sensor / actuator synthesis model of the bridge)
and the properties of it that the specification states.

Conventions of the embedding.

* `double` and `float` values are elements of a linearly ordered field `F` with a floor
  function (`ℚ` for evaluation, `ℝ` for the statements that involve `<cmath>`).  Arithmetic is
  exact, except for the products of a sample field and a constant that the source converts to
  an integer (the timestamp, the latitude, the longitude, the altitude and the velocities):
  there the truncation makes the rounding of the last bit visible, and the products are rounded
  as binary64 rounds them (`roundDouble`, `dmul`, `ftToMDouble`).
* The functions of `<cmath>` the source calls are a parameter `CMath F`; `CMath.real` is their
  exact meaning over `ℝ`.
* A conversion of a floating value to an integer type truncates toward zero and is undefined
  when the truncated value does not fit the type; signed `int` arithmetic is undefined when it
  overflows; a read outside an array is undefined.  Undefined behaviour is `none`.
* A division whose divisor is zero has no finite value (`none`); IEEE gives an infinity or NaN.
* `standard_normal_distribution_(random_generator_)` reads the next element of a stream of
  samples, the field `gen` of the state.
-/

namespace Bridge

/-! ## Types declared outside `vehicle_state.cpp` -/

/-- The flag `MAV_MODE_FLAG_SAFETY_ARMED` of the MAVLink `MAV_MODE_FLAG` enumeration (0x80). -/
def MAV_MODE_FLAG_SAFETY_ARMED : Nat := 128

/-- The fields of `mavlink_hil_actuator_controls_t` that `setPXControls` reads: `uint8_t mode`
and `float controls[16]` (the raw channel sequence). -/
structure mavlink_hil_actuator_controls_t (F : Type) where
  mode : Nat
  controls : List F

/-- The fields of `mavlink_hil_gps_t` that `setGPSMsg` assigns.  `time_usec` is `uint64_t`,
`lat`, `lon`, `alt` are `int32_t`, `eph`, `epv`, `vel`, `cog` are `uint16_t`, `vn`, `ve`, `vd`
are `int16_t`, `fix_type` and `satellites_visible` are `uint8_t`. -/
structure mavlink_hil_gps_t where
  time_usec : Int
  fix_type : Int
  lat : Int
  lon : Int
  alt : Int
  eph : Int
  epv : Int
  vn : Int
  ve : Int
  vd : Int
  vel : Int
  cog : Int
  satellites_visible : Int
deriving DecidableEq, Repr

/-- The fields of `mavlink_hil_sensor_t` that `setSensorMsg` assigns.  `time_usec` is
`uint64_t`, `fields_updated` is an unsigned bitmask, the others are `float`. -/
structure mavlink_hil_sensor_t (F : Type) where
  time_usec : Int
  xacc : F
  yacc : F
  zacc : F
  xgyro : F
  ygyro : F
  zgyro : F
  xmag : F
  ymag : F
  zmag : F
  temperature : F
  abs_pressure : F
  pressure_alt : F
  diff_pressure : F
  fields_updated : Nat
deriving DecidableEq

/-- The fields of `fgOutputData` (the FlightGear sample) that `vehicle_state.cpp` reads; all
are `double`. -/
structure fgOutputData (F : Type) where
  elapsed_sec : F
  latitude_deg : F
  longitude_deg : F
  altitude_ft : F
  roll_deg : F
  pitch_deg : F
  heading_deg : F
  rateRoll_degps : F
  ratePitch_degps : F
  rateYaw_degps : F
  accelX_fps : F
  accelY_fps : F
  accelZ_fps : F
  speed_north_fps : F
  speed_east_fps : F
  speed_down_fps : F
  temperature_degc : F
  pressure_inhg : F
  pressure_alt_ft : F
  measured_total_pressure_inhg : F

/-- The functions of `<cmath>` that the source calls (`std::sqrt`, `std::atan2`, `cosf`, `sinf`,
`tanf`, and `sin`, `cos`, `sqrt` inside the quaternion class). -/
structure CMath (F : Type) where
  sin : F → F
  cos : F → F
  tan : F → F
  sqrt : F → F
  atan2 : F → F → F

/-- The geomagnetic lookup of `geo_mag_declination.h`, a function of latitude and longitude
(degrees) whose table is outside `vehicle_state.cpp`. -/
structure GeoMag (F : Type) where
  get_mag_strength : F → F → F
  get_mag_declination : F → F → F
  get_mag_inclination : F → F → F

/-- A three-component vector (`Vector3d`). -/
structure Vector3d (F : Type) where
  x : F
  y : F
  z : F
deriving DecidableEq

/-- The four components of a quaternion (`Quaterniond`). -/
structure Quaterniond (F : Type) where
  qw : F
  qx : F
  qy : F
  qz : F
deriving DecidableEq

/-- The members of `VehicleState`.  `gen` is the stream of samples that
`standard_normal_distribution_(random_generator_)` will return, next one first. -/
structure VehicleState (F : Type) where
  controlsCount : Nat
  controlsMap : List Int
  controlsP : List F
  FGControls : List F
  lastTime : F
  gen : Nat → F
  acc_nois : F
  gyro_nois : F
  mag_nois : F
  baro_alt_nois : F
  temp_nois : F
  abs_pressure_nois : F
  diff_pressure_nois : F
  sensor_msg : mavlink_hil_sensor_t F
  hil_gps_msg : mavlink_hil_gps_t

/-- What a call of `setFGData` computes besides the new state: the local `freq` (`none` when
the divisor is zero, where IEEE division gives no finite value) and the value written to
`std::cout`, if any. -/
structure FGTrace (F : Type) where
  freq : Option F
  cout : Option F

section Model

variable {F : Type} [LinearOrderedField F] [FloorRing F]

/-! ## Conversions between number types -/

/-- Truncation toward zero, the rounding of a C++ floating to integer conversion. -/
def truncToInt (x : F) : Int :=
  if 0 ≤ x then ⌊x⌋ else ⌈x⌉

/-- Conversion of a floating value to an integer type with range `lo..hi`: the truncated
value, undefined when it is not in the range. -/
def toIntegral (lo hi : Int) (x : F) : Option Int :=
  if lo ≤ truncToInt x ∧ truncToInt x ≤ hi then some (truncToInt x) else none

/-- Conversion to `int16_t`. -/
def toInt16 (x : F) : Option Int := toIntegral (-32768) 32767 x

/-- Conversion to `uint16_t`. -/
def toUInt16 (x : F) : Option Int := toIntegral 0 65535 x

/-- Conversion to `int32_t`. -/
def toInt32 (x : F) : Option Int := toIntegral (-2147483648) 2147483647 x

/-- Conversion to `uint64_t`. -/
def toUInt64 (x : F) : Option Int := toIntegral 0 18446744073709551615 x

/-- The result of an `int` (32-bit, signed) operation: undefined on overflow. -/
def checkedInt (v : Int) : Option Int :=
  if -2147483648 ≤ v ∧ v ≤ 2147483647 then some v else none

/-- Floating division `a / b`: no finite value when the divisor is zero. -/
def fdiv (a b : F) : Option F :=
  if b = 0 then none else some (a / b)

/-! ## Double-precision rounding

The values the source converts to an integer are products of `double` values; a conversion
truncates, so the rounding of the product decides the integer stored.  These products are
computed as binary64 does when every operation is evaluated in the format of `double`: the
exact product rounded to the nearest representable value, ties to even.  The operands are
meant to be `double` values themselves; the sample data that exercise the rounding are. -/

/-- Rounding to the nearest integer, ties to the even one. -/
def roundHalfEven (x : F) : Int :=
  if x - ⌊x⌋ < 1 / 2 then ⌊x⌋
  else if 1 / 2 < x - ⌊x⌋ then ⌊x⌋ + 1
  else if ⌊x⌋ % 2 = 0 then ⌊x⌋ else ⌊x⌋ + 1

/-- The exponent of the unit in the last place of the binary64 values next to `x`: 52 below
the exponent of `x`, and -1074 in the subnormal range. -/
def binade (x : F) : Int := max (Int.log 2 |x| - 52) (-1074)

/-- The binary64 value nearest to `x`, ties to even (the default rounding of `double`
arithmetic and of decimal literals).  Overflow to infinity, above `2^1024`, is not modelled:
such values are outside the range of every integer type they are converted to. -/
def roundDouble (x : F) : F := (roundHalfEven (x / 2 ^ binade x) : F) * 2 ^ binade x

/-- The `double` product `a * b`: the exact product, rounded. -/
def dmul (a b : F) : F := roundDouble (a * b)

/-! ## Unit conversions (`ftToM`, `degToRad`, `ftpssTomG`) -/

/-- The source function `VehicleState::ftpssTomG`. -/
def ftpssTomG (fpss : F) : F := fpss * 1000 / 32.2

/-- The source function `VehicleState::ftToM`. -/
def ftToM (ft : F) : F := 0.3048 * ft

/-- The source function `VehicleState::degToRad`. -/
def degToRad (deg : F) : F := deg * 3.141592654 / 180

/-- The source function `VehicleState::ftToM` as `double` arithmetic evaluates it: the literal
`0.3048` is the nearest `double` and the product is rounded.  `setGPSMsg` converts multiples of
this value to integers. -/
def ftToMDouble (ft : F) : F := dmul (roundDouble 0.3048) ft

/-! ## The rotation class (`Quaterniond`)

Modelled after the quaternion class of the math library the source includes: the constructor
from an axis and an angle, the product, `Inverse`, `RotateVector` and `RotateVectorReverse`. -/

/-- Modelled from the spec: the comparison `equal(a, b)` of the math library behind
`Quaterniond` (not under `src/`), true when `|a - b|` is at most the tolerance `1e-6`; it
guards the library against a zero axis and a zero norm. -/
def equal (a b : F) : Bool := decide (|a - b| ≤ 1e-6)

/-- Modelled from the spec: `Quaterniond::Normalize` of the rotation class (section 4.1,
RotationFrame; the class is not under `src/`): division of the four components by the norm,
the identity when the norm is zero. -/
def Quaterniond.Normalize (L : CMath F) (q : Quaterniond F) : Quaterniond F :=
  let s := L.sqrt (q.qw * q.qw + q.qx * q.qx + q.qy * q.qy + q.qz * q.qz)
  if equal s 0 then ⟨1, 0, 0, 0⟩ else ⟨q.qw / s, q.qx / s, q.qy / s, q.qz / s⟩

/-- Modelled from the spec: the constructor `Quaterniond(axis, angle)` of the rotation class
(section 4.1, one axis rotation; the class is not under `src/`): `(cos(angle/2),
axis * sin(angle/2) / |axis|)`, normalised. -/
def Quaterniond.ofAxisAngle (L : CMath F) (axis : Vector3d F) (angle : F) : Quaterniond F :=
  let l := axis.x * axis.x + axis.y * axis.y + axis.z * axis.z
  if equal l 0 then Quaterniond.Normalize L ⟨1, 0, 0, 0⟩
  else
    let aa := angle * 0.5
    let k := L.sin aa / L.sqrt l
    Quaterniond.Normalize L ⟨L.cos aa, axis.x * k, axis.y * k, axis.z * k⟩

/-- Modelled from the spec: the product `a * b` of the rotation class (section 4.1, the
composition of rotations; the class is not under `src/`), the Hamilton product. -/
def Quaterniond.mul (a b : Quaterniond F) : Quaterniond F :=
  ⟨a.qw * b.qw - a.qx * b.qx - a.qy * b.qy - a.qz * b.qz,
   a.qw * b.qx + a.qx * b.qw + a.qy * b.qz - a.qz * b.qy,
   a.qw * b.qy - a.qx * b.qz + a.qy * b.qw + a.qz * b.qx,
   a.qw * b.qz + a.qx * b.qy - a.qy * b.qx + a.qz * b.qw⟩

/-- Modelled from the spec: `Quaterniond::Inverse` of the rotation class (section 4.1; the
class is not under `src/`): the conjugate divided by the squared norm, the identity when the
squared norm is zero. -/
def Quaterniond.Inverse (q : Quaterniond F) : Quaterniond F :=
  let s := q.qw * q.qw + q.qx * q.qx + q.qy * q.qy + q.qz * q.qz
  if equal s 0 then ⟨1, 0, 0, 0⟩ else ⟨q.qw / s, -q.qx / s, -q.qy / s, -q.qz / s⟩

/-- Modelled from the spec: `Quaterniond::RotateVector` (section 4.1, rotateForward; the class
is not under `src/`): the vector part of `q * (0, v) * q⁻¹`. -/
def Quaterniond.RotateVector (q : Quaterniond F) (v : Vector3d F) : Vector3d F :=
  let tmp := Quaterniond.mul q (Quaterniond.mul ⟨0, v.x, v.y, v.z⟩ (Quaterniond.Inverse q))
  ⟨tmp.qx, tmp.qy, tmp.qz⟩

/-- Modelled from the spec: `Quaterniond::RotateVectorReverse` (section 4.1, rotateInverse;
the class is not under `src/`): the vector part of `q⁻¹ * (0, v) * q`. -/
def Quaterniond.RotateVectorReverse (q : Quaterniond F) (v : Vector3d F) : Vector3d F :=
  let tmp := Quaterniond.mul (Quaterniond.Inverse q) (Quaterniond.mul ⟨0, v.x, v.y, v.z⟩ q)
  ⟨tmp.qx, tmp.qy, tmp.qz⟩

/-- Componentwise sum of two vectors (`Vector3d::operator+`). -/
def Vector3d.add (a b : Vector3d F) : Vector3d F :=
  ⟨a.x + b.x, a.y + b.y, a.z + b.z⟩

/-! ## `VehicleState` -/

/-- The constructor `VehicleState::VehicleState(cCount, cMap, cP)`.  `mem` is the content of
the object before construction (the members the constructor does not assign keep it:
`lastTime`, `sensor_msg`, `hil_gps_msg`, and the generator in its initial state) and `heap`
the content of the array `new double[controlsCount]`, which is not initialised.  A negative
count makes the allocation fail. -/
def VehicleState.construct (mem : VehicleState F) (heap : Nat → F) (cCount : Int)
    (cMap : List Int) (cP : List F) : Option (VehicleState F) :=
  if 0 ≤ cCount then
    some { mem with
      controlsCount := cCount.toNat
      controlsMap := cMap
      controlsP := cP
      FGControls := (List.range cCount.toNat).map heap
      acc_nois := 0.0001
      gyro_nois := 0.001
      mag_nois := 0.001
      baro_alt_nois := 0.01
      temp_nois := 0.01
      abs_pressure_nois := 0.05
      diff_pressure_nois := 0.01 }
  else none

/-- The flag `armed` of `setPXControls`: `controls.mode & MAV_MODE_FLAG_SAFETY_ARMED`,
converted to `bool`. -/
def isArmed (controls : mavlink_hil_actuator_controls_t F) : Bool :=
  controls.mode &&& MAV_MODE_FLAG_SAFETY_ARMED != 0

/-- The loop `for (c = ...; c < controlsCount; c++)` of `setPXControls` with `n` iterations
left, the next one at index `c`, on the array `fg`. -/
def setPXControlsLoop (st : VehicleState F) (controls : mavlink_hil_actuator_controls_t F)
    (armed : Bool) : Nat → Nat → List F → Option (List F)
  | 0, _, fg => some fg
  | n + 1, c, fg =>
    if c < fg.length then
      if armed then
        match st.controlsP[c]?, st.controlsMap[c]? with
        | some p, some m =>
          if 0 ≤ m then
            match controls.controls[m.toNat]? with
            | some r => setPXControlsLoop st controls armed n (c + 1) (fg.set c (p * r))
            | none => none
          else none
        | _, _ => none
      else setPXControlsLoop st controls armed n (c + 1) (fg.set c 0)
    else none

/-- The source function `VehicleState::setPXControls`. -/
def setPXControls (st : VehicleState F) (controls : mavlink_hil_actuator_controls_t F) :
    Option (VehicleState F) :=
  (setPXControlsLoop st controls (isArmed controls) st.controlsCount 0 st.FGControls).map
    fun fg => { st with FGControls := fg }

/-- The source function `VehicleState::getGyro`. -/
def getGyro (L : CMath F) (fgData : fgOutputData F) : Vector3d F :=
  let roll := Quaterniond.ofAxisAngle L ⟨1, 0, 0⟩ (degToRad fgData.roll_deg)
  let pitch := Quaterniond.ofAxisAngle L ⟨0, 1, 0⟩ (degToRad fgData.pitch_deg)
  let heading := Quaterniond.ofAxisAngle L ⟨0, 0, 1⟩ (degToRad fgData.heading_deg)
  let bodyRot := Quaterniond.mul (Quaterniond.mul heading pitch) roll
  let rollRateP : Vector3d F := ⟨degToRad fgData.rateRoll_degps, 0, 0⟩
  let pitchRate : Vector3d F := ⟨0, degToRad fgData.ratePitch_degps, 0⟩
  let pitchRateP := bodyRot.RotateVectorReverse (heading.RotateVector pitchRate)
  let headingRate : Vector3d F := ⟨0, 0, degToRad fgData.rateYaw_degps⟩
  let headingRateP := bodyRot.RotateVectorReverse headingRate
  Vector3d.add (Vector3d.add rollRateP pitchRateP) headingRateP

/-- The source function `VehicleState::getMagneticField`. -/
def getMagneticField (L : CMath F) (G : GeoMag F) (fgData : fgOutputData F) : Vector3d F :=
  let strength_ga := 0.01 * G.get_mag_strength fgData.latitude_deg fgData.longitude_deg
  let declination_rad :=
    G.get_mag_declination fgData.latitude_deg fgData.longitude_deg * 3.14159265 / 180
  let inclination_rad :=
    G.get_mag_inclination fgData.latitude_deg fgData.longitude_deg * 3.14159265 / 180
  let H := strength_ga * L.cos inclination_rad
  let Z := H * L.tan inclination_rad
  let X := H * L.cos declination_rad
  let Y := H * L.sin declination_rad
  let mag_g : Vector3d F := ⟨X, Y, Z⟩
  let roll := Quaterniond.ofAxisAngle L ⟨1, 0, 0⟩ (degToRad fgData.roll_deg)
  let pitch := Quaterniond.ofAxisAngle L ⟨0, 1, 0⟩ (degToRad fgData.pitch_deg)
  let heading := Quaterniond.ofAxisAngle L ⟨0, 0, 1⟩ (degToRad fgData.heading_deg)
  let bodyRot := Quaterniond.mul (Quaterniond.mul heading pitch) roll
  bodyRot.RotateVectorReverse mag_g

/-- One call `standard_normal_distribution_(random_generator_)`: the sample returned and the
state after it. -/
def stdNormal (st : VehicleState F) : F × VehicleState F :=
  (st.gen 0, { st with gen := fun n => st.gen (n + 1) })

/-- The source function `VehicleState::setSensorMsg`.  The timestamp is the `double` product
`fgData.elapsed_sec * 1e6` converted to `uint64_t`. -/
def setSensorMsg (L : CMath F) (G : GeoMag F) (st : VehicleState F) (fgData : fgOutputData F) :
    Option (VehicleState F) :=
  match toUInt64 (dmul fgData.elapsed_sec 1e6) with
  | none => none
  | some time_usec =>
    let (n1, st) := stdNormal st
    let xacc := ftToM fgData.accelX_fps + st.acc_nois * n1
    let (n2, st) := stdNormal st
    let yacc := ftToM fgData.accelY_fps + st.acc_nois * n2
    let (n3, st) := stdNormal st
    let zacc := ftToM fgData.accelZ_fps + st.acc_nois * n3
    let gyro := getGyro L fgData
    let (n4, st) := stdNormal st
    let xgyro := gyro.x + st.gyro_nois * n4
    let (n5, st) := stdNormal st
    let ygyro := gyro.y + st.gyro_nois * n5
    let (n6, st) := stdNormal st
    let zgyro := gyro.z + st.gyro_nois * n6
    let mag_l := getMagneticField L G fgData
    let (n7, st) := stdNormal st
    let xmag := mag_l.x + st.mag_nois * n7
    let (n8, st) := stdNormal st
    let ymag := mag_l.y + st.mag_nois * n8
    let (n9, st) := stdNormal st
    let zmag := mag_l.z + st.mag_nois * n9
    let (n10, st) := stdNormal st
    let temperature := fgData.temperature_degc + st.temp_nois * n10
    let (n11, st) := stdNormal st
    let abs_pressure := fgData.pressure_inhg * 3386.39 / 100.0 + st.abs_pressure_nois * n11
    let (n12, st) := stdNormal st
    let pressure_alt := ftToM fgData.pressure_alt_ft + st.baro_alt_nois * n12
    let (n13, st) := stdNormal st
    let diff_pressure :=
      (fgData.measured_total_pressure_inhg - fgData.pressure_inhg) * 3386.39 / 100.0 +
        st.diff_pressure_nois * n13
    some { st with
      sensor_msg :=
        { time_usec := time_usec
          xacc := xacc
          yacc := yacc
          zacc := zacc
          xgyro := xgyro
          ygyro := ygyro
          zgyro := zgyro
          xmag := xmag
          ymag := ymag
          zmag := zmag
          temperature := temperature
          abs_pressure := abs_pressure
          pressure_alt := pressure_alt
          diff_pressure := diff_pressure
          fields_updated := 0x1FFF } }

/-- The ground speed of `setGPSMsg`: `std::sqrt(vn * vn + ve * ve)`, the products and the sum
computed in `int`, the root converted to `uint16_t`. -/
def groundSpeed (L : CMath F) (vn ve : Int) : Option Int :=
  match checkedInt (vn * vn), checkedInt (ve * ve) with
  | some a, some b =>
    match checkedInt (a + b) with
    | some s => toUInt16 (L.sqrt (s : F))
    | none => none
  | _, _ => none

/-- The local `cog` of `setGPSMsg` after the statement `if (cog < 0) cog += 360`. -/
def courseOverGround (L : CMath F) (vn ve : Int) : F :=
  let cog := -L.atan2 (vn : F) (ve : F) * 180 / 3.141592654 + 90
  if cog < 0 then cog + 360 else cog

/-- The value stored in `hil_gps_msg.cog`: `cog * 100` converted to `uint16_t`. -/
def cogField (L : CMath F) (vn ve : Int) : Option Int :=
  toUInt16 (courseOverGround L vn ve * 100)

/-- The source function `VehicleState::setGPSMsg`.  The timestamp, `lat`, `lon`, `alt`, `vn`,
`ve` and `vd` are `double` products converted to their integer types: `x * 1e6` and `x * 1e7`
are one rounded product, `ftToM(x) * 1000` and `ftToM(x) * 100` are the rounded product of the
rounded `ftToM(x)` and the factor. -/
def setGPSMsg (L : CMath F) (st : VehicleState F) (fgData : fgOutputData F) :
    Option (VehicleState F) := do
  let time_usec ← toUInt64 (dmul fgData.elapsed_sec 1e6)
  let lat ← toInt32 (dmul fgData.latitude_deg 1e7)
  let lon ← toInt32 (dmul fgData.longitude_deg 1e7)
  let alt ← toInt32 (dmul (ftToMDouble fgData.altitude_ft) 1000)
  let vn ← toInt16 (dmul (ftToMDouble fgData.speed_north_fps) 100)
  let ve ← toInt16 (dmul (ftToMDouble fgData.speed_east_fps) 100)
  let vd ← toInt16 (dmul (ftToMDouble fgData.speed_down_fps) 100)
  let vel ← groundSpeed L vn ve
  let cog ← cogField L vn ve
  some { st with
    hil_gps_msg :=
      { time_usec := time_usec
        fix_type := 3
        lat := lat
        lon := lon
        alt := alt
        eph := 100
        epv := 100
        vn := vn
        ve := ve
        vd := vd
        vel := vel
        cog := cog
        satellites_visible := 10 } }

/-- The local `freq` of `setFGData`: `1.0 / (fgData.elapsed_sec - lastTime)`. -/
def rateEstimate (st : VehicleState F) (fgData : fgOutputData F) : Option F :=
  fdiv 1.0 (fgData.elapsed_sec - st.lastTime)

/-- The statement `if (freq < 20) std::cout << "Freq: " << freq`: the value printed, if any.
An infinite `freq` (the quotient by the zero `x - x`) does not compare below 20. -/
def freqDiagnostic (freq : Option F) : Option F :=
  match freq with
  | some f => if f < 20 then some f else none
  | none => none

/-- The source function `VehicleState::setFGData`: the state after the call and what the call
computed on the way. -/
def setFGData (L : CMath F) (G : GeoMag F) (st : VehicleState F) (fgData : fgOutputData F) :
    Option (VehicleState F × FGTrace F) :=
  let freq := rateEstimate st fgData
  let st1 := { st with lastTime := fgData.elapsed_sec }
  match setSensorMsg L G st1 fgData with
  | none => none
  | some st2 =>
    match setGPSMsg L st2 fgData with
    | none => none
    | some st3 => some (st3, { freq := freq, cout := freqDiagnostic freq })

end Model

/-! ## The exact `<cmath>` -/

/-- The exact meaning of the `<cmath>` functions over the reals; `atan2 y x` is the argument of
`x + y i`, in `(-π, π]`, and `0` at the origin. -/
noncomputable def CMath.real : CMath ℝ where
  sin := Real.sin
  cos := Real.cos
  tan := Real.tan
  sqrt := Real.sqrt
  atan2 := fun y x => Complex.arg ⟨x, y⟩

/-! ## Sample data -/

/-- A sensor record with every field zero. -/
def zeroSensorMsg (F : Type) [Zero F] : mavlink_hil_sensor_t F :=
  ⟨0, 0, 0, 0, 0, 0, 0, 0, 0, 0, 0, 0, 0, 0, 0⟩

/-- A position record with every field zero. -/
def zeroGpsMsg : mavlink_hil_gps_t :=
  ⟨0, 0, 0, 0, 0, 0, 0, 0, 0, 0, 0, 0, 0⟩

/-- An object content before construction: no actuator configuration, `lastTime` holding `t0`,
sensor noise `noise` for every sample. -/
def blankState {F : Type} [Zero F] (t0 noise : F) : VehicleState F :=
  ⟨0, [], [], [], t0, fun _ => noise, 0, 0, 0, 0, 0, 0, 0, zeroSensorMsg F, zeroGpsMsg⟩

/-- The actuator configuration of the specification's example: `index = [2, 0]`,
`scale = [0.5, 2.0]`, on an output array holding arbitrary values. -/
def mapperState : VehicleState ℚ :=
  { blankState 0 1 with
    controlsCount := 2
    controlsMap := [2, 0]
    controlsP := [0.5, 2.0]
    FGControls := [7, -3] }

/-- The raw channels of the specification's example, `raw = [10, 20, 30]`, in the sixteen
channels of the command. -/
def rawChannels : List ℚ := [10, 20, 30, 0, 0, 0, 0, 0, 0, 0, 0, 0, 0, 0, 0, 0]

/-- A sample with every field zero. -/
def zeroSample (F : Type) [Zero F] : fgOutputData F :=
  ⟨0, 0, 0, 0, 0, 0, 0, 0, 0, 0, 0, 0, 0, 0, 0, 0, 0, 0, 0, 0⟩

/-- A sample moving due south at 0.04 ft/s: the scaled north velocity is -1.2192 cm/s, stored
as `vn = -1`, and `ve = 0`. -/
def southSample (F : Type) [Field F] : fgOutputData F :=
  { zeroSample F with speed_north_fps := -0.04 }

/-- A sample moving at 3 m/s north and 4 m/s east, given in ft/s: the speeds are the `double`
values of `3 / 0.3048` and `4 / 0.3048`, which print as 9.84251968503937 and
13.123359580052492. -/
def threeFourSample (F : Type) [Field F] : fgOutputData F :=
  { zeroSample F with
    speed_north_fps := 1385211499560315 / 140737488355328
    speed_east_fps := 7387794664321679 / 562949953421312 }

/-- A sample moving at 1075.078125 ft/s (327.6838125 m/s) south and as fast west: both scaled
velocities are truncated to -32768 cm/s, the least value of their fields. -/
def fastSouthWestSample (F : Type) [Field F] : fgOutputData F :=
  { zeroSample F with speed_north_fps := -1075.078125, speed_east_fps := -1075.078125 }

/-- A geomagnetic lookup that returns the strength 50, the declination 0 and the inclination 0
everywhere. -/
def flatGeoMag (F : Type) [Field F] : GeoMag F :=
  ⟨fun _ _ => 50, fun _ _ => 0, fun _ _ => 0⟩

/-- A level sample with body rates of 90, 45 and -30 degrees per second. -/
def turningSample (F : Type) [Field F] : fgOutputData F :=
  { zeroSample F with rateRoll_degps := 90, ratePitch_degps := 45, rateYaw_degps := -30 }

/-- A sample at rest whose timestamp is one second. -/
def tickSample (F : Type) [Field F] : fgOutputData F :=
  { zeroSample F with elapsed_sec := 1 }

/-- The seven noise standard deviations of a state are zero. -/
def noiseFree {F : Type} [Zero F] (st : VehicleState F) : Prop :=
  st.acc_nois = 0 ∧ st.gyro_nois = 0 ∧ st.mag_nois = 0 ∧ st.temp_nois = 0 ∧
    st.abs_pressure_nois = 0 ∧ st.diff_pressure_nois = 0 ∧ st.baro_alt_nois = 0

/-! ## Notions used in the statements -/

/-- The squared norm of a quaternion. -/
def Quaterniond.normSq {F : Type} [Field F] (q : Quaterniond F) : F :=
  q.qw * q.qw + q.qx * q.qx + q.qy * q.qy + q.qz * q.qz

/-- The conjugate of a quaternion. -/
def Quaterniond.conj {F : Type} [Field F] (q : Quaterniond F) : Quaterniond F :=
  ⟨q.qw, -q.qx, -q.qy, -q.qz⟩

/-- The squared Euclidean norm of a vector. -/
def Vector3d.normSq {F : Type} [Field F] (v : Vector3d F) : F :=
  v.x * v.x + v.y * v.y + v.z * v.z

/-- A geomagnetic lookup that returns the strength 50, the declination 10 degrees and the
inclination 60 degrees everywhere. -/
def tiltedGeoMag (F : Type) [Field F] : GeoMag F :=
  ⟨fun _ _ => 50, fun _ _ => 10, fun _ _ => 60⟩

/-- A sample with roll 30, pitch 10 and heading 45 degrees. -/
def bankedSample (F : Type) [Field F] : fgOutputData F :=
  { zeroSample F with roll_deg := 30, pitch_deg := 10, heading_deg := 45 }

/-- A level sample with heading 45 degrees. -/
def headingSample (F : Type) [Field F] : fgOutputData F :=
  { zeroSample F with heading_deg := 45 }

/-- The noise standard deviations of a state are the constants the constructor assigns. -/
def constructorNoise {F : Type} [Field F] (st : VehicleState F) : Prop :=
  st.acc_nois = 0.0001 ∧ st.gyro_nois = 0.001 ∧ st.mag_nois = 0.001 ∧
    st.baro_alt_nois = 0.01 ∧ st.temp_nois = 0.01 ∧ st.abs_pressure_nois = 0.05 ∧
    st.diff_pressure_nois = 0.01

/-- Two states agree on the generator state and on the seven noise standard deviations. -/
def sameNoiseSource {F : Type} (st st' : VehicleState F) : Prop :=
  st.gen = st'.gen ∧ st.acc_nois = st'.acc_nois ∧ st.gyro_nois = st'.gyro_nois ∧
    st.mag_nois = st'.mag_nois ∧ st.baro_alt_nois = st'.baro_alt_nois ∧
    st.temp_nois = st'.temp_nois ∧ st.abs_pressure_nois = st'.abs_pressure_nois ∧
    st.diff_pressure_nois = st'.diff_pressure_nois

/-- A sample in the southern hemisphere, one second after the start: latitude -33.12345678 and
longitude 151.2 degrees, altitude 1000 ft, velocity 100 ft/s north, 50 ft/s west and 5 ft/s
down, accelerations 1, 2 and -32 ft/s², 15 °C, static pressure 29.92 inHg, total pressure
30.5 inHg, pressure altitude 1000 ft. -/
def cruiseSample (F : Type) [Field F] : fgOutputData F :=
  { zeroSample F with
    elapsed_sec := 1
    latitude_deg := -33.12345678
    longitude_deg := 151.2
    altitude_ft := 1000
    accelX_fps := 1
    accelY_fps := 2
    accelZ_fps := -32
    speed_north_fps := 100
    speed_east_fps := -50
    speed_down_fps := 5
    temperature_degc := 15
    pressure_inhg := 29.92
    pressure_alt_ft := 1000
    measured_total_pressure_inhg := 30.5 }

/-- A sample at latitude 0 and longitude 0 moving north at 2000 ft/s: the scaled north
velocity is 60960 cm/s, above the greatest value of its 16-bit field. -/
def fastNorthSample (F : Type) [Field F] : fgOutputData F :=
  { zeroSample F with speed_north_fps := 2000 }

/-- A sample whose timestamp and latitude are the `double` nearest to 0.29, which is
0.28999999999999998 to seventeen digits, at longitude -122.5 degrees and altitude 855 ft,
moving at 100 ft/s north, 50 ft/s west and 5 ft/s down. -/
def roundingSample (F : Type) [Field F] : fgOutputData F :=
  { zeroSample F with
    elapsed_sec := 5224175567749775 / 18014398509481984
    latitude_deg := 5224175567749775 / 18014398509481984
    longitude_deg := -122.5
    altitude_ft := 855
    speed_north_fps := 100
    speed_east_fps := -50
    speed_down_fps := 5 }

/-! # Properties -/

section Properties

variable {F : Type} [LinearOrderedField F]

/-! ## `setPXControls` -/

/-- The constructor allocates `FGControls` with `controlsCount` entries. -/
theorem construct_FGControls_length (mem : VehicleState F) (heap : Nat → F) (cCount : Int)
    (cMap : List Int) (cP : List F) (st : VehicleState F)
    (h : VehicleState.construct mem heap cCount cMap cP = some st) :
    st.FGControls.length = st.controlsCount := by
  unfold VehicleState.construct at h
  split at h
  · cases h
    simp
  · cases h

/-- The loop of `setPXControls` on a disarmed command: the `n` entries from `c` on become
zero, the others are kept. -/
theorem setPXControlsLoop_disarmed (st : VehicleState F)
    (controls : mavlink_hil_actuator_controls_t F) :
    ∀ (n c : Nat) (fg : List F), c + n ≤ fg.length →
      ∃ r, setPXControlsLoop st controls false n c fg = some r ∧ r.length = fg.length ∧
        ∀ i, r[i]? = if c ≤ i ∧ i < c + n then some 0 else fg[i]? := by
  intro n
  induction n with
  | zero =>
    intro c fg _
    refine ⟨fg, rfl, rfl, fun i => ?_⟩
    rw [if_neg (by omega)]
  | succ n ih =>
    intro c fg h
    have hc : c < fg.length := by omega
    obtain ⟨r, hr, hlen, hget⟩ := ih (c + 1) (fg.set c 0) (by simp; omega)
    refine ⟨r, ?_, by simpa using hlen, fun i => ?_⟩
    · simp [setPXControlsLoop, hc, hr]
    · rw [hget i, List.getElem?_set]
      by_cases hi : c = i
      · subst hi
        rw [if_neg (by omega), if_pos rfl, if_pos hc, if_pos (by omega)]
      · by_cases h2 : c + 1 ≤ i ∧ i < c + 1 + n
        · rw [if_pos h2, if_pos (by omega)]
        · rw [if_neg h2, if_neg hi, if_neg (by omega)]

/-- The loop of `setPXControls` on an armed command whose reads are all inside their arrays:
entry `i` of the `n` entries from `c` on becomes `val i`, the product the iteration computes. -/
theorem setPXControlsLoop_armed (st : VehicleState F)
    (controls : mavlink_hil_actuator_controls_t F) (val : Nat → F) :
    ∀ (n c : Nat) (fg : List F), c + n ≤ fg.length →
      (∀ i, c ≤ i → i < c + n → ∃ p m r, st.controlsP[i]? = some p ∧
        st.controlsMap[i]? = some m ∧ 0 ≤ m ∧ controls.controls[m.toNat]? = some r ∧
        val i = p * r) →
      ∃ r, setPXControlsLoop st controls true n c fg = some r ∧ r.length = fg.length ∧
        ∀ i, r[i]? = if c ≤ i ∧ i < c + n then some (val i) else fg[i]? := by
  intro n
  induction n with
  | zero =>
    intro c fg _ _
    refine ⟨fg, rfl, rfl, fun i => ?_⟩
    rw [if_neg (by omega)]
  | succ n ih =>
    intro c fg h hv
    have hc : c < fg.length := by omega
    obtain ⟨p, m, x, hp, hm, hm0, hx, hval⟩ := hv c (le_refl c) (by omega)
    obtain ⟨r, hr, hlen, hget⟩ := ih (c + 1) (fg.set c (p * x)) (by simp; omega)
      (fun i h1 h2 => hv i (by omega) (by omega))
    refine ⟨r, ?_, by simpa using hlen, fun i => ?_⟩
    · simp [setPXControlsLoop, hc, hr, hp, hm, hm0, hx]
    · rw [hget i, List.getElem?_set]
      by_cases hi : c = i
      · subst hi
        rw [if_neg (by omega), if_pos rfl, if_pos hc, if_pos (by omega), hval]
      · by_cases h2 : c + 1 ≤ i ∧ i < c + 1 + n
        · rw [if_pos h2, if_pos (by omega)]
        · rw [if_neg h2, if_neg hi, if_neg (by omega)]

/-- C1: for every configuration and every actuator command whose mode does not have the
safety-armed flag set, `setPXControls` succeeds and leaves every one of the `controlsCount`
entries of `FGControls` equal to zero, whatever the raw channels (and the map and the scale
factors) are; nothing else in the state changes. -/
theorem setPXControls_disarmed_zero (st : VehicleState F)
    (controls : mavlink_hil_actuator_controls_t F)
    (hlen : st.FGControls.length = st.controlsCount)
    (hmode : controls.mode &&& MAV_MODE_FLAG_SAFETY_ARMED = 0) :
    setPXControls st controls =
      some { st with FGControls := List.replicate st.controlsCount 0 } := by
  have harm : isArmed controls = false := by simp [isArmed, hmode]
  obtain ⟨r, hr, hrlen, hget⟩ :=
    setPXControlsLoop_disarmed st controls st.controlsCount 0 st.FGControls (by omega)
  have hrep : r = List.replicate st.controlsCount 0 := by
    apply List.ext_getElem?
    intro i
    rw [hget i]
    by_cases hi : i < st.controlsCount
    · rw [if_pos (by omega), List.getElem?_replicate, if_pos hi]
    · rw [if_neg (by omega), List.getElem?_replicate, if_neg hi]
      exact List.getElem?_eq_none (by omega)
  simp [setPXControls, harm, hr, hrep]

/-- C1, at a concrete input: the example configuration with a disarmed command. -/
theorem setPXControls_disarmed_zero_witness :
    setPXControls mapperState ⟨0, rawChannels⟩ =
      some { mapperState with FGControls := [0, 0] } :=
  setPXControls_disarmed_zero mapperState ⟨0, rawChannels⟩ rfl rfl

/-- C2: for every actuator command with the safety-armed flag set and every configuration whose
scale array has `controlsCount` entries and whose indices `controlsMap[i]` are positions of the
raw channel sequence, `setPXControls` succeeds and entry `i` of `FGControls` is
`controlsP[i] * raw[controlsMap[i]]` for every `i < controlsCount`. -/
theorem setPXControls_armed_scaled (st : VehicleState F)
    (controls : mavlink_hil_actuator_controls_t F)
    (hlen : st.FGControls.length = st.controlsCount)
    (hmode : controls.mode &&& MAV_MODE_FLAG_SAFETY_ARMED ≠ 0)
    (hP : st.controlsCount ≤ st.controlsP.length)
    (hMap : ∀ i, i < st.controlsCount →
      ∃ m : Nat, st.controlsMap[i]? = some (m : Int) ∧ m < controls.controls.length) :
    ∃ fg, setPXControls st controls = some { st with FGControls := fg } ∧
      fg.length = st.controlsCount ∧
      ∀ i p m r, i < st.controlsCount → st.controlsP[i]? = some p →
        st.controlsMap[i]? = some m → controls.controls[m.toNat]? = some r →
        fg[i]? = some (p * r) := by
  have harm : isArmed controls = true := by simp [isArmed, hmode]
  have hP2 : ∀ i, i < st.controlsCount → ∃ p, st.controlsP[i]? = some p := fun i hi =>
    ⟨_, List.getElem?_eq_getElem (by omega)⟩
  have hR : ∀ m : Nat, m < controls.controls.length → ∃ r, controls.controls[m]? = some r :=
    fun m hm => ⟨_, List.getElem?_eq_getElem hm⟩
  let val : Nat → F := fun i =>
    match st.controlsP[i]?, st.controlsMap[i]? with
    | some p, some m =>
      match controls.controls[m.toNat]? with
      | some r => p * r
      | none => 0
    | _, _ => 0
  obtain ⟨fg, hfg, hfglen, hget⟩ :=
    setPXControlsLoop_armed st controls val st.controlsCount 0 st.FGControls (by omega)
      (by
        intro i _ hi
        obtain ⟨m, hm, hmlt⟩ := hMap i (by omega)
        obtain ⟨p, hp⟩ := hP2 i (by omega)
        obtain ⟨r, hr⟩ := hR m hmlt
        refine ⟨p, m, r, hp, hm, by omega, by simpa using hr, ?_⟩
        simp [val, hp, hm, hr])
  refine ⟨fg, by simp [setPXControls, harm, hfg], by omega, ?_⟩
  intro i p m r hi hp hm hr
  rw [hget i, if_pos (by omega)]
  simp [val, hp, hm, hr]

/-- C2, at the specification's example: `index = [2, 0]`, `scale = [0.5, 2.0]`,
`raw = [10, 20, 30]` give `[15, 20]` when armed, and `[0, 0]` when disarmed. -/
theorem setPXControls_armed_scaled_witness :
    (setPXControls mapperState ⟨128, rawChannels⟩).map (fun s => s.FGControls) = some [15, 20] ∧
    (setPXControls mapperState ⟨0, rawChannels⟩).map (fun s => s.FGControls) = some [0, 0] := by
  obtain ⟨fg, hfg, hlen, hget⟩ :=
    setPXControls_armed_scaled mapperState ⟨128, rawChannels⟩ rfl (by decide) (by decide)
      (by
        intro i hi
        have hi2 : i < 2 := hi
        interval_cases i
        · exact ⟨2, rfl, by decide⟩
        · exact ⟨0, rfl, by decide⟩)
  have h0 := hget 0 0.5 2 30 (by decide) rfl rfl rfl
  have h1 := hget 1 2.0 0 10 (by decide) rfl rfl rfl
  have hlen2 : fg.length = 2 := hlen
  constructor
  · rw [hfg]
    match fg, hlen2, h0, h1 with
    | [a, b], _, h0, h1 =>
      simp at h0 h1
      subst h0 h1
      norm_num
  · simp [mapperState, setPXControls, setPXControlsLoop, isArmed, MAV_MODE_FLAG_SAFETY_ARMED]

end Properties

/-! ## Integer conversions -/

section Conversions

variable {F : Type} [LinearOrderedField F] [FloorRing F]

/-- Truncation of a non-negative value is its floor. -/
theorem truncToInt_eq_of_nonneg (x : F) (n : Int) (h0 : 0 ≤ x) (h1 : (n : F) ≤ x)
    (h2 : x < n + 1) : truncToInt x = n := by
  unfold truncToInt
  rw [if_pos h0]
  exact Int.floor_eq_iff.mpr ⟨h1, h2⟩

/-- Truncation of a negative value is its ceiling. -/
theorem truncToInt_eq_of_neg (x : F) (n : Int) (h0 : x < 0) (h1 : (n : F) - 1 < x)
    (h2 : x ≤ n) : truncToInt x = n := by
  unfold truncToInt
  rw [if_neg (not_le.mpr h0)]
  exact Int.ceil_eq_iff.mpr ⟨h1, h2⟩

/-- A conversion is defined exactly when the truncated value is in the range of the type. -/
theorem toIntegral_some_iff (lo hi : Int) (x : F) (n : Int) :
    toIntegral lo hi x = some n ↔ truncToInt x = n ∧ lo ≤ n ∧ n ≤ hi := by
  unfold toIntegral
  constructor
  · intro h
    split at h
    · cases h
      tauto
    · cases h
  · rintro ⟨rfl, h1, h2⟩
    rw [if_pos ⟨h1, h2⟩]

/-- Conversion of a non-negative value between `n` and `n + 1`. -/
theorem toIntegral_eq_of_nonneg (lo hi : Int) (x : F) (n : Int) (h0 : 0 ≤ x)
    (h1 : (n : F) ≤ x) (h2 : x < n + 1) (hlo : lo ≤ n) (hhi : n ≤ hi) :
    toIntegral lo hi x = some n :=
  (toIntegral_some_iff lo hi x n).mpr ⟨truncToInt_eq_of_nonneg x n h0 h1 h2, hlo, hhi⟩

/-- Conversion of a negative value between `n - 1` and `n`. -/
theorem toIntegral_eq_of_neg (lo hi : Int) (x : F) (n : Int) (h0 : x < 0)
    (h1 : (n : F) - 1 < x) (h2 : x ≤ n) (hlo : lo ≤ n) (hhi : n ≤ hi) :
    toIntegral lo hi x = some n :=
  (toIntegral_some_iff lo hi x n).mpr ⟨truncToInt_eq_of_neg x n h0 h1 h2, hlo, hhi⟩

/-- Conversion of zero. -/
theorem toIntegral_zero (lo hi : Int) (hlo : lo ≤ 0) (hhi : 0 ≤ hi) :
    toIntegral lo hi (0 : F) = some 0 :=
  toIntegral_eq_of_nonneg lo hi 0 0 le_rfl (by simp) (by simp) hlo hhi

/-! ## Double-precision rounding -/

/-- A value less than one half away from an integer rounds to that integer. -/
theorem roundHalfEven_eq (x : F) (m : Int) (h : |x - m| < 1 / 2) : roundHalfEven x = m := by
  rw [abs_lt] at h
  obtain ⟨h1, h2⟩ := h
  unfold roundHalfEven
  by_cases hx : (m : F) ≤ x
  · have hf : ⌊x⌋ = m := Int.floor_eq_iff.mpr ⟨hx, by linarith⟩
    rw [hf, if_pos (by linarith)]
  · have hx' : x < m := not_le.mp hx
    have hf : ⌊x⌋ = m - 1 :=
      Int.floor_eq_iff.mpr ⟨by push_cast; linarith, by push_cast; linarith⟩
    rw [hf, if_neg (by push_cast; linarith), if_pos (by push_cast; linarith)]
    ring

/-- Rounding to the nearest integer moves a value by at most one half. -/
theorem roundHalfEven_error (x : F) : |(roundHalfEven x : F) - x| ≤ 1 / 2 := by
  have h0 := Int.floor_le x
  have h1 := Int.lt_floor_add_one x
  unfold roundHalfEven
  rw [abs_le]
  split
  · constructor <;> linarith
  · split
    · push_cast
      constructor <;> linarith
    · next h2 h3 =>
      have he : x - ⌊x⌋ = 1 / 2 := le_antisymm (not_lt.mp h3) (not_lt.mp h2)
      split
      · constructor <;> linarith
      · push_cast
        constructor <;> linarith

/-- The rounding of a non-negative value to the nearest integer is non-negative. -/
theorem roundHalfEven_nonneg (x : F) (h : 0 ≤ x) : 0 ≤ roundHalfEven x := by
  have hf : 0 ≤ ⌊x⌋ := Int.floor_nonneg.mpr h
  unfold roundHalfEven
  split
  · exact hf
  · split
    · omega
    · split
      · exact hf
      · omega

omit [FloorRing F] in
/-- The powers of two are positive. -/
theorem two_zpow_pos (e : Int) : (0 : F) < 2 ^ e := zpow_pos (by norm_num) e

/-- The exponent of the last place of a value between `2^L` and `2^(L+1)`. -/
theorem binade_eq (x : F) (L : Int) (h1 : (2 : F) ^ L ≤ |x|) (h2 : |x| < 2 ^ (L + 1)) :
    binade x = max (L - 52) (-1074) := by
  have hpos : 0 < |x| := lt_of_lt_of_le (two_zpow_pos L) h1
  have hlog : Int.log 2 |x| = L := by
    apply le_antisymm
    · have := (Int.lt_zpow_iff_log_lt (by norm_num : 1 < 2) hpos).mp (by exact_mod_cast h2)
      omega
    · exact (Int.zpow_le_iff_le_log (by norm_num : 1 < 2) hpos).mp (by exact_mod_cast h1)
  unfold binade
  rw [hlog]

/-- The `double` nearest to `x`, from the exponent of its last place and the integer its
significand rounds to. -/
theorem roundDouble_eval (x : F) (e m : Int) (he : binade x = e)
    (hm : |x / 2 ^ e - m| < 1 / 2) : roundDouble x = m * 2 ^ e := by
  unfold roundDouble
  rw [he, roundHalfEven_eq _ m hm]

/-- Zero is a `double`. -/
theorem roundDouble_zero : roundDouble (0 : F) = 0 := by
  unfold roundDouble
  have : roundHalfEven ((0 : F) / 2 ^ binade (0 : F)) = 0 :=
    roundHalfEven_eq _ 0 (by simp)
  rw [this]
  simp

/-- The `double` nearest to a non-negative value is non-negative. -/
theorem roundDouble_nonneg (x : F) (h : 0 ≤ x) : 0 ≤ roundDouble x := by
  unfold roundDouble
  have hp := two_zpow_pos (F := F) (binade x)
  have : (0 : F) ≤ (roundHalfEven (x / 2 ^ binade x) : F) := by
    exact_mod_cast roundHalfEven_nonneg _ (div_nonneg h hp.le)
  exact mul_nonneg this hp.le

/-- The rounding error of a `double`: half a unit in the last place. -/
theorem roundDouble_error (x : F) :
    |roundDouble x - x| ≤ (|x| / 2 ^ 52 + 1 / 2 ^ 1074) / 2 := by
  by_cases hx : x = 0
  · subst hx
    rw [roundDouble_zero]
    simp
    positivity
  have hpos : 0 < |x| := abs_pos.mpr hx
  have hp := two_zpow_pos (F := F) (binade x)
  have herr := roundHalfEven_error (x / 2 ^ binade x)
  have h1 : |roundDouble x - x| ≤ 2 ^ binade x / 2 := by
    have e : roundDouble x - x =
        ((roundHalfEven (x / 2 ^ binade x) : F) - x / 2 ^ binade x) * 2 ^ binade x := by
      unfold roundDouble
      field_simp
    rw [e, abs_mul, abs_of_pos hp]
    calc |(roundHalfEven (x / 2 ^ binade x) : F) - x / 2 ^ binade x| * 2 ^ binade x
        ≤ 1 / 2 * 2 ^ binade x := mul_le_mul_of_nonneg_right herr hp.le
      _ = 2 ^ binade x / 2 := by ring
  have h2 : (2 : F) ^ binade x ≤ |x| / 2 ^ 52 + 1 / 2 ^ 1074 := by
    unfold binade
    rcases max_cases (Int.log 2 |x| - 52) (-1074) with ⟨hm, -⟩ | ⟨hm, -⟩
    · rw [hm, zpow_sub₀ (by norm_num)]
      have hl : ((2 : ℕ) : F) ^ Int.log 2 |x| ≤ |x| := Int.zpow_log_le_self (by norm_num) hpos
      have hl' : (2 : F) ^ Int.log 2 |x| ≤ |x| := by exact_mod_cast hl
      have : (2 : F) ^ Int.log 2 |x| / 2 ^ (52 : ℤ) ≤ |x| / 2 ^ 52 := by
        rw [show ((2 : F) ^ (52 : ℤ)) = 2 ^ 52 by norm_cast]
        exact div_le_div_of_nonneg_right hl' (by positivity)
      have : (0 : F) ≤ 1 / 2 ^ 1074 := by positivity
      linarith
    · rw [hm]
      have : (2 : F) ^ (-1074 : ℤ) = 1 / 2 ^ 1074 := by
        rw [zpow_neg, one_div]
        norm_cast
      rw [this]
      have : 0 ≤ |x| / 2 ^ 52 := by positivity
      linarith
  linarith

/-- The `double` nearest to a value of magnitude at most `B`, for `B` up to `2^52`, has
magnitude below `B + 1`. -/
theorem roundDouble_abs_lt (x B : F) (hB : |x| ≤ B) (hB2 : B ≤ 4503599627370496) :
    |roundDouble x| < B + 1 := by
  have herr := roundDouble_error x
  have h1 : |roundDouble x| ≤ |x| + |roundDouble x - x| := by
    have := abs_add x (roundDouble x - x)
    simpa using this
  have h2 : |x| / 2 ^ 52 ≤ 1 := by
    rw [div_le_one (by positivity)]
    norm_num
    linarith
  have h3 : (1 : F) / 2 ^ 1074 ≤ 1 / 2 := by
    apply div_le_div_of_nonneg_left (by norm_num) (by norm_num)
    calc (2 : F) = 2 ^ 1 := by norm_num
      _ ≤ 2 ^ 1074 := pow_le_pow_right₀ (by norm_num) (by norm_num)
  linarith

/-- The truncation of a value of magnitude below `N + 1` has magnitude at most `N`. -/
theorem truncToInt_abs_lt (x : F) (N : Int) (h : |x| < N + 1) :
    -N ≤ truncToInt x ∧ truncToInt x ≤ N := by
  rw [abs_lt] at h
  obtain ⟨h1, h2⟩ := h
  unfold truncToInt
  split
  · next h0 =>
    have hf : ⌊x⌋ < N + 1 := Int.floor_lt.mpr (by push_cast; exact h2)
    have hf0 : 0 ≤ ⌊x⌋ := Int.floor_nonneg.mpr h0
    omega
  · next h0 =>
    have hx : x < 0 := not_le.mp h0
    have hc : -N - 1 < ⌈x⌉ := Int.lt_ceil.mpr (by push_cast; linarith)
    have hc0 : ⌈x⌉ ≤ 0 := Int.ceil_le.mpr (by simpa using hx.le)
    omega

/-- The `double` product with zero is zero. -/
theorem dmul_zero_left (b : F) : dmul 0 b = 0 := by
  unfold dmul
  rw [zero_mul, roundDouble_zero]

/-- Zero feet are zero metres, also in `double` arithmetic. -/
theorem ftToMDouble_zero : ftToMDouble (0 : F) = 0 := by
  unfold ftToMDouble dmul
  rw [mul_zero, roundDouble_zero]

/-! ## `setGPSMsg` -/

/-- The record `setGPSMsg` stores when every conversion of the call is defined. -/
theorem setGPSMsg_eq_some (L : CMath F) (st : VehicleState F) (fgData : fgOutputData F)
    {t lat lon alt vn ve vd vel cog : Int}
    (ht : toUInt64 (dmul fgData.elapsed_sec 1e6) = some t)
    (hlat : toInt32 (dmul fgData.latitude_deg 1e7) = some lat)
    (hlon : toInt32 (dmul fgData.longitude_deg 1e7) = some lon)
    (halt : toInt32 (dmul (ftToMDouble fgData.altitude_ft) 1000) = some alt)
    (hvn : toInt16 (dmul (ftToMDouble fgData.speed_north_fps) 100) = some vn)
    (hve : toInt16 (dmul (ftToMDouble fgData.speed_east_fps) 100) = some ve)
    (hvd : toInt16 (dmul (ftToMDouble fgData.speed_down_fps) 100) = some vd)
    (hvel : groundSpeed L vn ve = some vel)
    (hcog : cogField L vn ve = some cog) :
    setGPSMsg L st fgData = some { st with
      hil_gps_msg := ⟨t, 3, lat, lon, alt, 100, 100, vn, ve, vd, vel, cog, 10⟩ } := by
  simp [setGPSMsg, ht, hlat, hlon, halt, hvn, hve, hvd, hvel, hcog]

/-- When `setGPSMsg` is defined, every conversion of the call is, and the record stored is made
of their results. -/
theorem setGPSMsg_some_inv (L : CMath F) (st st' : VehicleState F) (fgData : fgOutputData F)
    (h : setGPSMsg L st fgData = some st') :
    ∃ t lat lon alt vn ve vd vel cog,
      toUInt64 (dmul fgData.elapsed_sec 1e6) = some t ∧
      toInt32 (dmul fgData.latitude_deg 1e7) = some lat ∧
      toInt32 (dmul fgData.longitude_deg 1e7) = some lon ∧
      toInt32 (dmul (ftToMDouble fgData.altitude_ft) 1000) = some alt ∧
      toInt16 (dmul (ftToMDouble fgData.speed_north_fps) 100) = some vn ∧
      toInt16 (dmul (ftToMDouble fgData.speed_east_fps) 100) = some ve ∧
      toInt16 (dmul (ftToMDouble fgData.speed_down_fps) 100) = some vd ∧
      groundSpeed L vn ve = some vel ∧
      cogField L vn ve = some cog ∧
      st' = { st with
        hil_gps_msg := ⟨t, 3, lat, lon, alt, 100, 100, vn, ve, vd, vel, cog, 10⟩ } := by
  simp only [setGPSMsg, Option.bind_eq_bind, Option.bind_eq_some] at h
  obtain ⟨t, ht, lat, hlat, lon, hlon, alt, halt, vn, hvn, ve, hve, vd, hvd, vel, hvel, cog,
    hcog, hst⟩ := h
  exact ⟨t, lat, lon, alt, vn, ve, vd, vel, cog, ht, hlat, hlon, halt, hvn, hve, hvd, hvel,
    hcog, (Option.some.inj hst).symm⟩

/-- The sum `vn * vn + ve * ve` overflows `int` when both fields hold -32768. -/
theorem groundSpeed_overflow (L : CMath F) : groundSpeed L (-32768) (-32768) = none := by
  simp [groundSpeed, checkedInt]

end Conversions

/-- The constant the source uses for π is larger than π. -/
theorem pi_lt_const : Real.pi < 3.141592654 := by
  have := Real.pi_lt_d20
  linarith

/-- The ratio of π to the constant the source uses for it. -/
theorem pi_ratio_bounds :
    (0.99999 : ℝ) < Real.pi / 3.141592654 ∧ Real.pi / 3.141592654 < 1 := by
  have hp := pi_lt_const
  have hp6 := Real.pi_gt_d6
  constructor
  · rw [lt_div_iff₀ (by norm_num)]
    linarith
  · rw [div_lt_iff₀ (by norm_num)]
    linarith

/-- The exact `atan2` takes its values in `(-π, π]`. -/
theorem real_atan2_range (y x : ℝ) :
    -Real.pi < CMath.real.atan2 y x ∧ CMath.real.atan2 y x ≤ Real.pi :=
  ⟨Complex.neg_pi_lt_arg _, Complex.arg_le_pi _⟩

/-- The bearing after the statement `if (cog < 0) cog += 360` lies in `[0, 360)`. -/
theorem courseOverGround_range (vn ve : Int) :
    0 ≤ courseOverGround CMath.real vn ve ∧ courseOverGround CMath.real vn ve < 360 := by
  obtain ⟨h1, h2⟩ := real_atan2_range (vn : ℝ) (ve : ℝ)
  have hp := pi_lt_const
  have hp0 := Real.pi_pos
  unfold courseOverGround
  have hb : -180 < -CMath.real.atan2 (vn : ℝ) (ve : ℝ) * 180 / 3.141592654 ∧
      -CMath.real.atan2 (vn : ℝ) (ve : ℝ) * 180 / 3.141592654 < 180 := by
    constructor
    · rw [lt_div_iff₀ (by norm_num)]
      nlinarith
    · rw [div_lt_iff₀ (by norm_num)]
      nlinarith
  simp only
  split
  · constructor <;> linarith
  · constructor <;> linarith

/-- The conversion of `cog * 100` to `uint16_t` is always defined, with a result in
`0..35999`. -/
theorem cogField_defined (vn ve : Int) :
    ∃ c, cogField CMath.real vn ve = some c ∧ 0 ≤ c ∧ c ≤ 35999 := by
  obtain ⟨h0, h1⟩ := courseOverGround_range vn ve
  set x := courseOverGround CMath.real vn ve * 100 with hx
  have hx0 : 0 ≤ x := by positivity
  have hx1 : x < 36000 := by linarith
  have hf0 : 0 ≤ ⌊x⌋ := Int.floor_nonneg.mpr hx0
  have hf1 : ⌊x⌋ < 36000 := Int.floor_lt.mpr (by exact_mod_cast hx1)
  refine ⟨⌊x⌋, ?_, hf0, by omega⟩
  unfold cogField toUInt16
  exact toIntegral_eq_of_nonneg 0 65535 x ⌊x⌋ hx0 (Int.floor_le x) (Int.lt_floor_add_one x)
    hf0 (by omega)

/-- The stored course for a velocity whose `atan2` is `k * π`, `r` standing for the ratio of π
to the constant of the source. -/
theorem cogField_eq_of_atan2 (vn ve n : Int) (k r : ℝ)
    (hr : Real.pi / 3.141592654 = r)
    (ha : CMath.real.atan2 (vn : ℝ) (ve : ℝ) = k * Real.pi)
    (h0 : 0 ≤ -k * 180 * r + 90)
    (h1 : (n : ℝ) ≤ (-k * 180 * r + 90) * 100)
    (h2 : (-k * 180 * r + 90) * 100 < n + 1)
    (hn : 0 ≤ n) (hn2 : n ≤ 65535) :
    cogField CMath.real vn ve = some n := by
  subst hr
  have hc : courseOverGround CMath.real vn ve = -k * 180 * (Real.pi / 3.141592654) + 90 := by
    unfold courseOverGround
    simp only [ha]
    have e : -(k * Real.pi) * 180 / 3.141592654 + 90 =
        -k * 180 * (Real.pi / 3.141592654) + 90 := by ring
    rw [e, if_neg (not_lt.mpr h0)]
  unfold cogField toUInt16
  rw [hc]
  exact toIntegral_eq_of_nonneg 0 65535 _ n (by linarith) h1 h2 hn hn2

/-- The stored course for a velocity due north, due east and due south. -/
theorem cogField_cardinal :
    cogField CMath.real 1 0 = some 0 ∧ cogField CMath.real 0 1 = some 9000 ∧
      cogField CMath.real (-1) 0 = some 17999 := by
  obtain ⟨hk1, hk2⟩ := pi_ratio_bounds
  generalize hr : Real.pi / 3.141592654 = r at hk1 hk2
  have hI : Complex.arg ⟨0, 1⟩ = Real.pi / 2 := Complex.arg_I
  have h1 : Complex.arg ⟨1, 0⟩ = 0 := Complex.arg_one
  have hnI : Complex.arg ⟨0, -1⟩ = -(Real.pi / 2) := by
    have : (⟨0, -1⟩ : ℂ) = -Complex.I := by
      apply Complex.ext <;> simp
    rw [this, Complex.arg_neg_I]
  refine ⟨?_, ?_, ?_⟩
  · apply cogField_eq_of_atan2 1 0 0 (1 / 2) r hr
    · simp only [CMath.real, Int.cast_one, Int.cast_zero, hI]
      ring
    all_goals norm_num
    all_goals linarith
  · apply cogField_eq_of_atan2 0 1 9000 0 r hr
    · simp only [CMath.real, Int.cast_one, Int.cast_zero, h1]
      ring
    all_goals norm_num
  · apply cogField_eq_of_atan2 (-1) 0 17999 (-(1 / 2)) r hr
    · simp only [CMath.real, Int.cast_one, Int.cast_zero, Int.cast_neg, hnI]
      ring
    all_goals norm_num
    all_goals linarith

/-- The ground speed for fields `vn`, `ve` that are not both -32768: the conversion is defined
and its result is the integer square root of `vn² + ve²`, the truncation of the real root. -/
theorem groundSpeed_real (vn ve : Int) (hvn : -32768 ≤ vn ∧ vn ≤ 32767)
    (hve : -32768 ≤ ve ∧ ve ≤ 32767) (hne : ¬ (vn = -32768 ∧ ve = -32768)) :
    groundSpeed CMath.real vn ve = some ((Nat.sqrt (vn * vn + ve * ve).toNat : Nat) : Int) ∧
    ((Nat.sqrt (vn * vn + ve * ve).toNat : Nat) : Int) =
      truncToInt (Real.sqrt ((vn : ℝ) ^ 2 + (ve : ℝ) ^ 2)) := by
  have h1 : 0 ≤ vn * vn ∧ vn * vn ≤ 1073741824 := by
    constructor <;> nlinarith
  have h2 : 0 ≤ ve * ve ∧ ve * ve ≤ 1073741824 := by
    constructor <;> nlinarith
  have h3 : vn * vn + ve * ve ≤ 2147483647 := by
    by_cases hv : vn = -32768
    · have hv2 : ve ≠ -32768 := fun h => hne ⟨hv, h⟩
      have : ve * ve ≤ 1073676289 := by
        have : -32767 ≤ ve := by omega
        nlinarith
      subst hv
      omega
    · have : vn * vn ≤ 1073676289 := by
        have : -32767 ≤ vn := by omega
        nlinarith
      omega
  set s := vn * vn + ve * ve with hs
  have hs0 : 0 ≤ s := by omega
  obtain ⟨n, hn⟩ := Int.eq_ofNat_of_zero_le hs0
  have hcast : (s : ℝ) = (n : ℝ) := by rw [hn]; simp
  have hfloor : ⌊Real.sqrt (n : ℝ)⌋ = (Nat.sqrt n : Int) := Real.floor_real_sqrt_eq_nat_sqrt
  have htr : truncToInt (Real.sqrt (s : ℝ)) = (Nat.sqrt n : Int) := by
    unfold truncToInt
    rw [if_pos (Real.sqrt_nonneg _), hcast, hfloor]
  have hsq : (Nat.sqrt n : Int) ≤ 65535 := by
    have : Nat.sqrt n < 65536 := Nat.sqrt_lt.mpr (by omega)
    omega
  have htoNat : s.toNat = n := by rw [hn]; simp
  constructor
  · unfold groundSpeed checkedInt
    rw [if_pos (by omega), if_pos (by omega)]
    simp only
    rw [← hs, if_pos (by omega)]
    simp only [CMath.real]
    unfold toUInt16 toIntegral
    rw [htr, if_pos ⟨by omega, hsq⟩, htoNat]
  · rw [htoNat, ← htr, hs]
    push_cast
    ring_nf

/-! ## The rounded products of the sample data

Each product is evaluated from the exponent of its last place and the integer its significand
rounds to. -/

/-- The `double` nearest to the literal `0.3048`. -/
theorem roundDouble_literal :
    roundDouble (0.3048 : ℝ) =
      5490788665690109 / 18014398509481984 := by
  have hb :
      binade (0.3048 : ℝ) = -54 := by
    rw [binade_eq _ (-2) (by norm_num [abs_of_pos]) (by norm_num [abs_of_pos])]
    rfl
  rw [roundDouble_eval _ (-54) (5490788665690109) hb (by norm_num [abs_lt])]
  norm_num

/-- The `double` product of 0.3048 and -0.04 (ft/s). -/
theorem ftToMDouble_south_product :
    roundDouble (5490788665690109 / 18014398509481984 *
      (-0.04) : ℝ) =
      -(1757052373020835 / 144115188075855872) := by
  have hb :
      binade (5490788665690109 / 18014398509481984 *
      (-0.04) : ℝ) = -59 := by
    rw [binade_eq _ (-7) (by norm_num [abs_of_neg]) (by norm_num [abs_of_neg])]
    rfl
  rw [roundDouble_eval _ (-59) (-7028209492083340) hb (by norm_num [abs_lt])]
  norm_num

/-- The `double` product of the previous value and 100. -/
theorem ftToMDouble_south_scaled :
    roundDouble (-(1757052373020835 / 144115188075855872) * 100 : ℝ) =
      -(5490788665690109 / 4503599627370496) := by
  have hb :
      binade (-(1757052373020835 / 144115188075855872) * 100 : ℝ) = -52 := by
    rw [binade_eq _ (0) (by norm_num [abs_of_neg]) (by norm_num [abs_of_neg])]
    rfl
  rw [roundDouble_eval _ (-52) (-5490788665690109) hb (by norm_num [abs_lt])]
  norm_num

/-- The value `ftToM(x) * 100` as `double` arithmetic evaluates it, `x` being
-0.04 (ft/s). -/
theorem ftToMDouble_south :
    dmul (ftToMDouble (-0.04 : ℝ)) 100 =
      -(5490788665690109 / 4503599627370496) := by
  unfold ftToMDouble dmul
  rw [roundDouble_literal, ftToMDouble_south_product, ftToMDouble_south_scaled]

/-- The `double` product of 0.3048 and the `double` of 3 / 0.3048. -/
theorem ftToMDouble_three_product :
    roundDouble (5490788665690109 / 18014398509481984 *
      (1385211499560315 / 140737488355328) : ℝ) =
      6755399441055745 / 2251799813685248 := by
  have hb :
      binade (5490788665690109 / 18014398509481984 *
      (1385211499560315 / 140737488355328) : ℝ) = -51 := by
    rw [binade_eq _ (1) (by norm_num [abs_of_pos]) (by norm_num [abs_of_pos])]
    rfl
  rw [roundDouble_eval _ (-51) (6755399441055745) hb (by norm_num [abs_lt])]
  norm_num

/-- The `double` product of the previous value and 100. -/
theorem ftToMDouble_three_scaled :
    roundDouble (6755399441055745 / 2251799813685248 * 100 : ℝ) =
      5277655813324801 / 17592186044416 := by
  have hb :
      binade (6755399441055745 / 2251799813685248 * 100 : ℝ) = -44 := by
    rw [binade_eq _ (8) (by norm_num [abs_of_pos]) (by norm_num [abs_of_pos])]
    rfl
  rw [roundDouble_eval _ (-44) (5277655813324801) hb (by norm_num [abs_lt])]
  norm_num

/-- The value `ftToM(x) * 100` as `double` arithmetic evaluates it, `x` being
the `double` of 3 / 0.3048. -/
theorem ftToMDouble_three :
    dmul (ftToMDouble (1385211499560315 / 140737488355328 : ℝ)) 100 =
      5277655813324801 / 17592186044416 := by
  unfold ftToMDouble dmul
  rw [roundDouble_literal, ftToMDouble_three_product, ftToMDouble_three_scaled]

/-- The `double` product of 0.3048 and the `double` of 4 / 0.3048. -/
theorem ftToMDouble_four_product :
    roundDouble (5490788665690109 / 18014398509481984 *
      (7387794664321679 / 562949953421312) : ℝ) =
      9007199254740991 / 2251799813685248 := by
  have hb :
      binade (5490788665690109 / 18014398509481984 *
      (7387794664321679 / 562949953421312) : ℝ) = -51 := by
    rw [binade_eq _ (1) (by norm_num [abs_of_pos]) (by norm_num [abs_of_pos])]
    rfl
  rw [roundDouble_eval _ (-51) (9007199254740991) hb (by norm_num [abs_lt])]
  norm_num

/-- The `double` product of the previous value and 100. -/
theorem ftToMDouble_four_scaled :
    roundDouble (9007199254740991 / 2251799813685248 * 100 : ℝ) =
      7036874417766399 / 17592186044416 := by
  have hb :
      binade (9007199254740991 / 2251799813685248 * 100 : ℝ) = -44 := by
    rw [binade_eq _ (8) (by norm_num [abs_of_pos]) (by norm_num [abs_of_pos])]
    rfl
  rw [roundDouble_eval _ (-44) (7036874417766399) hb (by norm_num [abs_lt])]
  norm_num

/-- The value `ftToM(x) * 100` as `double` arithmetic evaluates it, `x` being
the `double` of 4 / 0.3048. -/
theorem ftToMDouble_four :
    dmul (ftToMDouble (7387794664321679 / 562949953421312 : ℝ)) 100 =
      7036874417766399 / 17592186044416 := by
  unfold ftToMDouble dmul
  rw [roundDouble_literal, ftToMDouble_four_product, ftToMDouble_four_scaled]

/-- The `double` product of 0.3048 and -1075.078125 (ft/s). -/
theorem ftToMDouble_fastSouthWest_product :
    roundDouble (5490788665690109 / 18014398509481984 *
      (-1075.078125) : ℝ) =
      -(2882337296621765 / 8796093022208) := by
  have hb :
      binade (5490788665690109 / 18014398509481984 *
      (-1075.078125) : ℝ) = -44 := by
    rw [binade_eq _ (8) (by norm_num [abs_of_neg]) (by norm_num [abs_of_neg])]
    rfl
  rw [roundDouble_eval _ (-44) (-5764674593243530) hb (by norm_num [abs_lt])]
  norm_num

/-- The `double` product of the previous value and 100. -/
theorem ftToMDouble_fastSouthWest_scaled :
    roundDouble (-(2882337296621765 / 8796093022208) * 100 : ℝ) =
      -(1125913006492877 / 34359738368) := by
  have hb :
      binade (-(2882337296621765 / 8796093022208) * 100 : ℝ) = -37 := by
    rw [binade_eq _ (15) (by norm_num [abs_of_neg]) (by norm_num [abs_of_neg])]
    rfl
  rw [roundDouble_eval _ (-37) (-4503652025971508) hb (by norm_num [abs_lt])]
  norm_num

/-- The value `ftToM(x) * 100` as `double` arithmetic evaluates it, `x` being
-1075.078125 (ft/s). -/
theorem ftToMDouble_fastSouthWest :
    dmul (ftToMDouble (-1075.078125 : ℝ)) 100 =
      -(1125913006492877 / 34359738368) := by
  unfold ftToMDouble dmul
  rw [roundDouble_literal, ftToMDouble_fastSouthWest_product, ftToMDouble_fastSouthWest_scaled]

/-- The `double` product of 0.3048 and 2000 (ft/s). -/
theorem ftToMDouble_fastNorth_product :
    roundDouble (5490788665690109 / 18014398509481984 * 2000 : ℝ) =
      5362098306337997 / 8796093022208 := by
  have hb :
      binade (5490788665690109 / 18014398509481984 * 2000 : ℝ) = -43 := by
    rw [binade_eq _ (9) (by norm_num [abs_of_pos]) (by norm_num [abs_of_pos])]
    rfl
  rw [roundDouble_eval _ (-43) (5362098306337997) hb (by norm_num [abs_lt])]
  norm_num

/-- The `double` product of the previous value and 100. -/
theorem ftToMDouble_fastNorth_scaled :
    roundDouble (5362098306337997 / 8796093022208 * 100 : ℝ) =
      60960 := by
  have hb :
      binade (5362098306337997 / 8796093022208 * 100 : ℝ) = -37 := by
    rw [binade_eq _ (15) (by norm_num [abs_of_pos]) (by norm_num [abs_of_pos])]
    rfl
  rw [roundDouble_eval _ (-37) (8378278603653120) hb (by norm_num [abs_lt])]
  norm_num

/-- The value `ftToM(x) * 100` as `double` arithmetic evaluates it, `x` being
2000 (ft/s). -/
theorem ftToMDouble_fastNorth :
    dmul (ftToMDouble (2000 : ℝ)) 100 =
      60960 := by
  unfold ftToMDouble dmul
  rw [roundDouble_literal, ftToMDouble_fastNorth_product, ftToMDouble_fastNorth_scaled]

/-- The `double` product of 0.3048 and 855 (ft). -/
theorem ftToMDouble_altitude_product :
    roundDouble (5490788665690109 / 18014398509481984 * 855 : ℝ) =
      4584594051918987 / 17592186044416 := by
  have hb :
      binade (5490788665690109 / 18014398509481984 * 855 : ℝ) = -44 := by
    rw [binade_eq _ (8) (by norm_num [abs_of_pos]) (by norm_num [abs_of_pos])]
    rfl
  rw [roundDouble_eval _ (-44) (4584594051918987) hb (by norm_num [abs_lt])]
  norm_num

/-- The `double` product of the previous value and 1000. -/
theorem ftToMDouble_altitude_scaled :
    roundDouble (4584594051918987 / 17592186044416 * 1000 : ℝ) =
      8954285257654271 / 34359738368 := by
  have hb :
      binade (4584594051918987 / 17592186044416 * 1000 : ℝ) = -35 := by
    rw [binade_eq _ (17) (by norm_num [abs_of_pos]) (by norm_num [abs_of_pos])]
    rfl
  rw [roundDouble_eval _ (-35) (8954285257654271) hb (by norm_num [abs_lt])]
  norm_num

/-- The value `ftToM(x) * 1000` as `double` arithmetic evaluates it, `x` being
855 (ft). -/
theorem ftToMDouble_altitude :
    dmul (ftToMDouble (855 : ℝ)) 1000 =
      8954285257654271 / 34359738368 := by
  unfold ftToMDouble dmul
  rw [roundDouble_literal, ftToMDouble_altitude_product, ftToMDouble_altitude_scaled]

/-- The `double` product of 0.3048 and 100 (ft/s). -/
theorem ftToMDouble_north_product :
    roundDouble (5490788665690109 / 18014398509481984 * 100 : ℝ) =
      8579357290140795 / 281474976710656 := by
  have hb :
      binade (5490788665690109 / 18014398509481984 * 100 : ℝ) = -48 := by
    rw [binade_eq _ (4) (by norm_num [abs_of_pos]) (by norm_num [abs_of_pos])]
    rfl
  rw [roundDouble_eval _ (-48) (8579357290140795) hb (by norm_num [abs_lt])]
  norm_num

/-- The `double` product of the previous value and 100. -/
theorem ftToMDouble_north_scaled :
    roundDouble (8579357290140795 / 281474976710656 * 100 : ℝ) =
      3048 := by
  have hb :
      binade (8579357290140795 / 281474976710656 * 100 : ℝ) = -41 := by
    rw [binade_eq _ (11) (by norm_num [abs_of_pos]) (by norm_num [abs_of_pos])]
    rfl
  rw [roundDouble_eval _ (-41) (6702622882922496) hb (by norm_num [abs_lt])]
  norm_num

/-- The value `ftToM(x) * 100` as `double` arithmetic evaluates it, `x` being
100 (ft/s). -/
theorem ftToMDouble_north :
    dmul (ftToMDouble (100 : ℝ)) 100 =
      3048 := by
  unfold ftToMDouble dmul
  rw [roundDouble_literal, ftToMDouble_north_product, ftToMDouble_north_scaled]

/-- The `double` product of 0.3048 and -50 (ft/s). -/
theorem ftToMDouble_east_product :
    roundDouble (5490788665690109 / 18014398509481984 *
      (-50) : ℝ) =
      -(8579357290140795 / 562949953421312) := by
  have hb :
      binade (5490788665690109 / 18014398509481984 *
      (-50) : ℝ) = -49 := by
    rw [binade_eq _ (3) (by norm_num [abs_of_neg]) (by norm_num [abs_of_neg])]
    rfl
  rw [roundDouble_eval _ (-49) (-8579357290140795) hb (by norm_num [abs_lt])]
  norm_num

/-- The `double` product of the previous value and 100. -/
theorem ftToMDouble_east_scaled :
    roundDouble (-(8579357290140795 / 562949953421312) * 100 : ℝ) =
      -1524 := by
  have hb :
      binade (-(8579357290140795 / 562949953421312) * 100 : ℝ) = -42 := by
    rw [binade_eq _ (10) (by norm_num [abs_of_neg]) (by norm_num [abs_of_neg])]
    rfl
  rw [roundDouble_eval _ (-42) (-6702622882922496) hb (by norm_num [abs_lt])]
  norm_num

/-- The value `ftToM(x) * 100` as `double` arithmetic evaluates it, `x` being
-50 (ft/s). -/
theorem ftToMDouble_east :
    dmul (ftToMDouble (-50 : ℝ)) 100 =
      -1524 := by
  unfold ftToMDouble dmul
  rw [roundDouble_literal, ftToMDouble_east_product, ftToMDouble_east_scaled]

/-- The `double` product of 0.3048 and 5 (ft/s). -/
theorem ftToMDouble_down_product :
    roundDouble (5490788665690109 / 18014398509481984 * 5 : ℝ) =
      1715871458028159 / 1125899906842624 := by
  have hb :
      binade (5490788665690109 / 18014398509481984 * 5 : ℝ) = -52 := by
    rw [binade_eq _ (0) (by norm_num [abs_of_pos]) (by norm_num [abs_of_pos])]
    rfl
  rw [roundDouble_eval _ (-52) (6863485832112636) hb (by norm_num [abs_lt])]
  norm_num

/-- The `double` product of the previous value and 100. -/
theorem ftToMDouble_down_scaled :
    roundDouble (1715871458028159 / 1125899906842624 * 100 : ℝ) =
      5362098306337997 / 35184372088832 := by
  have hb :
      binade (1715871458028159 / 1125899906842624 * 100 : ℝ) = -45 := by
    rw [binade_eq _ (7) (by norm_num [abs_of_pos]) (by norm_num [abs_of_pos])]
    rfl
  rw [roundDouble_eval _ (-45) (5362098306337997) hb (by norm_num [abs_lt])]
  norm_num

/-- The value `ftToM(x) * 100` as `double` arithmetic evaluates it, `x` being
5 (ft/s). -/
theorem ftToMDouble_down :
    dmul (ftToMDouble (5 : ℝ)) 100 =
      5362098306337997 / 35184372088832 := by
  unfold ftToMDouble dmul
  rw [roundDouble_literal, ftToMDouble_down_product, ftToMDouble_down_scaled]

/-- One second in microseconds, as a `double` product. -/
theorem dmul_second_rounded :
    roundDouble (1 * 1e6 : ℝ) =
      1000000 := by
  have hb :
      binade (1 * 1e6 : ℝ) = -33 := by
    rw [binade_eq _ (19) (by norm_num [abs_of_pos]) (by norm_num [abs_of_pos])]
    rfl
  rw [roundDouble_eval _ (-33) (8589934592000000) hb (by norm_num [abs_lt])]
  norm_num

/-- One second in microseconds, as a `double` product. -/
theorem dmul_second :
    dmul (1 : ℝ) 1e6 = 1000000 :=
  dmul_second_rounded

/-- The `double` nearest to 0.29 in microseconds, as a `double` product. -/
theorem dmul_time029_rounded :
    roundDouble (5224175567749775 / 18014398509481984 * 1e6 : ℝ) =
      290000 := by
  have hb :
      binade (5224175567749775 / 18014398509481984 * 1e6 : ℝ) = -34 := by
    rw [binade_eq _ (18) (by norm_num [abs_of_pos]) (by norm_num [abs_of_pos])]
    rfl
  rw [roundDouble_eval _ (-34) (4982162063360000) hb (by norm_num [abs_lt])]
  norm_num

/-- The `double` nearest to 0.29 in microseconds, as a `double` product. -/
theorem dmul_time029 :
    dmul (5224175567749775 / 18014398509481984 : ℝ) 1e6 = 290000 :=
  dmul_time029_rounded

/-- The `double` nearest to 0.29 scaled by 10^7, as a `double` product. -/
theorem dmul_lat029_rounded :
    roundDouble (5224175567749775 / 18014398509481984 * 1e7 : ℝ) =
      2900000 := by
  have hb :
      binade (5224175567749775 / 18014398509481984 * 1e7 : ℝ) = -31 := by
    rw [binade_eq _ (21) (by norm_num [abs_of_pos]) (by norm_num [abs_of_pos])]
    rfl
  rw [roundDouble_eval _ (-31) (6227702579200000) hb (by norm_num [abs_lt])]
  norm_num

/-- The `double` nearest to 0.29 scaled by 10^7, as a `double` product. -/
theorem dmul_lat029 :
    dmul (5224175567749775 / 18014398509481984 : ℝ) 1e7 = 2900000 :=
  dmul_lat029_rounded

/-- The longitude -122.5 scaled by 10^7, as a `double` product. -/
theorem dmul_lon_rounded :
    roundDouble (-122.5 * 1e7 : ℝ) =
      -1225000000 := by
  have hb :
      binade (-122.5 * 1e7 : ℝ) = -22 := by
    rw [binade_eq _ (30) (by norm_num [abs_of_neg]) (by norm_num [abs_of_neg])]
    rfl
  rw [roundDouble_eval _ (-22) (-5138022400000000) hb (by norm_num [abs_lt])]
  norm_num

/-- The longitude -122.5 scaled by 10^7, as a `double` product. -/
theorem dmul_lon :
    dmul (-122.5 : ℝ) 1e7 = -1225000000 :=
  dmul_lon_rounded

/-- The conversions of the fields of a sample that are zero. -/
theorem zero_conversions :
    toUInt64 (dmul (0 : ℝ) 1e6) = some 0 ∧ toInt32 (dmul (0 : ℝ) 1e7) = some 0 ∧
      toInt32 (dmul (ftToMDouble (0 : ℝ)) 1000) = some 0 ∧
      toInt16 (dmul (ftToMDouble (0 : ℝ)) 100) = some 0 := by
  simp only [ftToMDouble_zero, dmul_zero_left]
  exact ⟨toIntegral_zero 0 18446744073709551615 (by decide) (by decide),
    toIntegral_zero (-2147483648) 2147483647 (by decide) (by decide),
    toIntegral_zero (-2147483648) 2147483647 (by decide) (by decide),
    toIntegral_zero (-32768) 32767 (by decide) (by decide)⟩

/-- The scaled north velocity of the sample moving south is stored as -1. -/
theorem southSample_vn :
    toInt16 (dmul (ftToMDouble (southSample ℝ).speed_north_fps) 100) = some (-1) := by
  have e : (southSample ℝ).speed_north_fps = -0.04 := rfl
  rw [e, ftToMDouble_south]
  apply toIntegral_eq_of_neg <;> norm_num

/-- The scaled velocities of the 3 m/s, 4 m/s sample are stored as 300 and 399: the `double`
products are 300.00000000000006 and 399.99999999999994. -/
theorem threeFourSample_vn_ve :
    toInt16 (dmul (ftToMDouble (threeFourSample ℝ).speed_north_fps) 100) = some 300 ∧
    toInt16 (dmul (ftToMDouble (threeFourSample ℝ).speed_east_fps) 100) = some 399 := by
  have e1 : (threeFourSample ℝ).speed_north_fps = 1385211499560315 / 140737488355328 := rfl
  have e2 : (threeFourSample ℝ).speed_east_fps = 7387794664321679 / 562949953421312 := rfl
  rw [e1, e2, ftToMDouble_three, ftToMDouble_four]
  constructor
  · apply toIntegral_eq_of_nonneg <;> norm_num
  · apply toIntegral_eq_of_nonneg <;> norm_num

/-- The scaled velocities of the fast south-west sample are both stored as -32768. -/
theorem fastSouthWestSample_vn_ve :
    toInt16 (dmul (ftToMDouble (fastSouthWestSample ℝ).speed_north_fps) 100) = some (-32768) ∧
    toInt16 (dmul (ftToMDouble (fastSouthWestSample ℝ).speed_east_fps) 100) = some (-32768) := by
  have e1 : (fastSouthWestSample ℝ).speed_north_fps = -1075.078125 := rfl
  have e2 : (fastSouthWestSample ℝ).speed_east_fps = -1075.078125 := rfl
  rw [e1, e2, ftToMDouble_fastSouthWest]
  constructor
  · apply toIntegral_eq_of_neg <;> norm_num
  · apply toIntegral_eq_of_neg <;> norm_num

/-- C3: the course-over-ground `setGPSMsg` stores is 0 for `(vn, ve) = (1, 0)` and 9000 for
`(0, 1)`, but 17999, not 18000, for `(-1, 0)`: the bearing is `90 + 90 * π / 3.141592654`,
just below 180 because the constant is larger than π, and the conversion truncates.  The last
part is the record of a whole call on a sample moving due south. -/
theorem setGPSMsg_cog_cardinal :
    cogField CMath.real 1 0 = some 0 ∧ cogField CMath.real 0 1 = some 9000 ∧
    cogField CMath.real (-1) 0 = some 17999 ∧
    ∀ st : VehicleState ℝ, setGPSMsg CMath.real st (southSample ℝ) =
      some { st with hil_gps_msg := ⟨0, 3, 0, 0, 0, 100, 100, -1, 0, 0, 1, 17999, 10⟩ } := by
  obtain ⟨h1, h2, h3⟩ := cogField_cardinal
  obtain ⟨z1, z2, z3, z4⟩ := zero_conversions
  refine ⟨h1, h2, h3, fun st => ?_⟩
  apply setGPSMsg_eq_some
  · exact z1
  · exact z2
  · exact z2
  · exact z3
  · exact southSample_vn
  · exact z4
  · exact z4
  · have := (groundSpeed_real (-1) 0 (by decide) (by decide) (by decide)).1
    simpa using this
  · exact h3

/-- C4: for every pair of velocity field values `vn`, `ve` (16-bit or not, the origin
included) the bearing after the statement `if (cog < 0) cog += 360` lies in `[0, 360)`, the
conversion of `cog * 100` is defined and its result is in `0..35999`; so is the field `cog` of
every record `setGPSMsg` stores. -/
theorem setGPSMsg_cog_range :
    (∀ vn ve : Int, 0 ≤ courseOverGround CMath.real vn ve ∧
      courseOverGround CMath.real vn ve < 360 ∧
      ∃ c, cogField CMath.real vn ve = some c ∧ 0 ≤ c ∧ c ≤ 35999) ∧
    ∀ (st st' : VehicleState ℝ) (fgData : fgOutputData ℝ),
      setGPSMsg CMath.real st fgData = some st' →
      0 ≤ st'.hil_gps_msg.cog ∧ st'.hil_gps_msg.cog ≤ 35999 := by
  constructor
  · intro vn ve
    exact ⟨(courseOverGround_range vn ve).1, (courseOverGround_range vn ve).2,
      cogField_defined vn ve⟩
  · intro st st' fgData h
    obtain ⟨t, lat, lon, alt, vn, ve, vd, vel, cog, -, -, -, -, -, -, -, -, hcog, rfl⟩ :=
      setGPSMsg_some_inv CMath.real st st' fgData h
    obtain ⟨c, hc, hc0, hc1⟩ := cogField_defined vn ve
    rw [hc] at hcog
    cases hcog
    exact ⟨hc0, hc1⟩

/-- The ground speed of a defined call: for every sample whose scaled values fit their integer
fields and whose `vn` and `ve` are not both -32768, `setGPSMsg` is defined and the ground speed
it stores is the truncation of `√(vn² + ve²)`, `vn` and `ve` being the stored integer north and
east velocity fields (the down component does not enter). -/
theorem setGPSMsg_groundSpeed (st : VehicleState ℝ) (fgData : fgOutputData ℝ)
    (t lat lon alt vn ve vd : Int)
    (ht : toUInt64 (dmul fgData.elapsed_sec 1e6) = some t)
    (hlat : toInt32 (dmul fgData.latitude_deg 1e7) = some lat)
    (hlon : toInt32 (dmul fgData.longitude_deg 1e7) = some lon)
    (halt : toInt32 (dmul (ftToMDouble fgData.altitude_ft) 1000) = some alt)
    (hvn : toInt16 (dmul (ftToMDouble fgData.speed_north_fps) 100) = some vn)
    (hve : toInt16 (dmul (ftToMDouble fgData.speed_east_fps) 100) = some ve)
    (hvd : toInt16 (dmul (ftToMDouble fgData.speed_down_fps) 100) = some vd)
    (hne : ¬ (vn = -32768 ∧ ve = -32768)) :
    ∃ st', setGPSMsg CMath.real st fgData = some st' ∧
      st'.hil_gps_msg.vn = vn ∧ st'.hil_gps_msg.ve = ve ∧
      st'.hil_gps_msg.vel =
        truncToInt (Real.sqrt ((st'.hil_gps_msg.vn : ℝ) ^ 2 + (st'.hil_gps_msg.ve : ℝ) ^ 2)) ∧
      st'.hil_gps_msg.vel = ((Nat.sqrt (vn * vn + ve * ve).toNat : Nat) : Int) := by
  have rvn := ((toIntegral_some_iff _ _ _ _).mp hvn).2
  have rve := ((toIntegral_some_iff _ _ _ _).mp hve).2
  obtain ⟨hvel, htrunc⟩ := groundSpeed_real vn ve rvn rve hne
  obtain ⟨c, hc, -, -⟩ := cogField_defined vn ve
  exact ⟨_, setGPSMsg_eq_some CMath.real st fgData ht hlat hlon halt hvn hve hvd hvel hc,
    rfl, rfl, htrunc, rfl⟩

/-- C5: the code departs from the claim on two inputs.  On the sample whose speeds are the
`double` values of `3 / 0.3048` and `4 / 0.3048` ft/s (3 m/s north, 4 m/s east) `setGPSMsg`
stores `vn = 300`, `ve = 399` and `vel = 499`, not 300, 400 and 500: the `double` product
`ftToM(speed_east_fps) * 100` is 399.99999999999994 and the conversion truncates it.  On the
sample moving at 1075.078125 ft/s south and west both scaled velocities fit their fields
(`vn = ve = -32768`), the sum `vn * vn + ve * ve` overflows `int`, and `setGPSMsg` stores no
ground speed. -/
theorem setGPSMsg_groundSpeed_divergence :
    (∃ st', setGPSMsg CMath.real (blankState 0 0) (threeFourSample ℝ) = some st' ∧
      st'.hil_gps_msg.vn = 300 ∧ st'.hil_gps_msg.ve = 399 ∧ st'.hil_gps_msg.vel = 499) ∧
    toInt16 (dmul (ftToMDouble (fastSouthWestSample ℝ).speed_north_fps) 100) = some (-32768) ∧
    toInt16 (dmul (ftToMDouble (fastSouthWestSample ℝ).speed_east_fps) 100) = some (-32768) ∧
    setGPSMsg CMath.real (blankState 0 0) (fastSouthWestSample ℝ) = none := by
  obtain ⟨h1, h2⟩ := fastSouthWestSample_vn_ve
  refine ⟨?_, h1, h2, ?_⟩
  · obtain ⟨z1, z2, z3, z4⟩ := zero_conversions
    obtain ⟨st', h, hvn, hve, -, hvel⟩ :=
      setGPSMsg_groundSpeed (blankState 0 0) (threeFourSample ℝ) 0 0 0 0 300 399 0
        z1 z2 z2 z3 threeFourSample_vn_ve.1 threeFourSample_vn_ve.2 z4 (by decide)
    refine ⟨st', h, hvn, hve, ?_⟩
    rw [hvel]
    have e : Nat.sqrt ((300 : Int) * 300 + 399 * 399).toNat = 499 :=
      (Nat.eq_sqrt.mpr ⟨by decide, by decide⟩).symm
    rw [e]
    rfl
  · cases h : setGPSMsg CMath.real (blankState 0 0) (fastSouthWestSample ℝ) with
    | none => rfl
    | some st' =>
      obtain ⟨t, lat, lon, alt, vn, ve, vd, vel, cog, -, -, -, -, hvn, hve, -, hvel, -, -⟩ :=
        setGPSMsg_some_inv CMath.real _ st' _ h
      rw [h1] at hvn
      rw [h2] at hve
      cases hvn
      cases hve
      rw [groundSpeed_overflow] at hvel
      cases hvel

/-! ## The rotation class at the zero angle -/

section ZeroAttitude

variable {F : Type} [LinearOrderedField F]

/-- The number 1 is not within the tolerance of 0. -/
theorem equal_one_zero : equal (1 : F) 0 = false := by
  have h : ¬ (|(1 : F) - 0| ≤ 1e-6) := by
    rw [sub_zero, abs_one]
    norm_num
  unfold equal
  exact decide_eq_false h

/-- Zero degrees are zero radians. -/
theorem degToRad_zero : degToRad (0 : F) = 0 := by
  simp [degToRad]

/-- Normalising the identity quaternion gives the identity quaternion. -/
theorem Normalize_identity (L : CMath F) (hsqrt : L.sqrt 1 = 1) :
    Quaterniond.Normalize L (⟨1, 0, 0, 0⟩ : Quaterniond F) = ⟨1, 0, 0, 0⟩ := by
  simp [Quaterniond.Normalize, hsqrt, equal_one_zero]

/-- A rotation by the zero angle about a coordinate axis is the identity quaternion. -/
theorem ofAxisAngle_zero (L : CMath F) (hsin : L.sin 0 = 0) (hcos : L.cos 0 = 1)
    (hsqrt : L.sqrt 1 = 1) :
    Quaterniond.ofAxisAngle L ⟨1, 0, 0⟩ 0 = ⟨1, 0, 0, 0⟩ ∧
    Quaterniond.ofAxisAngle L ⟨0, 1, 0⟩ 0 = ⟨1, 0, 0, 0⟩ ∧
    Quaterniond.ofAxisAngle L ⟨0, 0, 1⟩ 0 = ⟨1, 0, 0, 0⟩ := by
  refine ⟨?_, ?_, ?_⟩ <;>
    simp [Quaterniond.ofAxisAngle, hsin, hcos, hsqrt, equal_one_zero, Normalize_identity]

/-- The identity quaternion is a left unit of the product. -/
theorem mul_identity (q : Quaterniond F) :
    Quaterniond.mul ⟨1, 0, 0, 0⟩ q = q := by
  cases q
  simp [Quaterniond.mul]

/-- The inverse of the identity quaternion is the identity quaternion. -/
theorem Inverse_identity :
    Quaterniond.Inverse (⟨1, 0, 0, 0⟩ : Quaterniond F) = ⟨1, 0, 0, 0⟩ := by
  simp [Quaterniond.Inverse, equal_one_zero]

/-- The identity quaternion rotates no vector, in either direction. -/
theorem RotateVector_identity (v : Vector3d F) :
    Quaterniond.RotateVector ⟨1, 0, 0, 0⟩ v = v ∧
    Quaterniond.RotateVectorReverse ⟨1, 0, 0, 0⟩ v = v := by
  cases v
  simp [Quaterniond.RotateVector, Quaterniond.RotateVectorReverse, Inverse_identity,
    Quaterniond.mul]

/-- The magnetic field at zero attitude, zero declination and zero inclination. -/
theorem getMagneticField_zero (L : CMath F) (G : GeoMag F) (hsin : L.sin 0 = 0)
    (hcos : L.cos 0 = 1) (htan : L.tan 0 = 0) (hsqrt : L.sqrt 1 = 1)
    (fgData : fgOutputData F) (hroll : fgData.roll_deg = 0) (hpitch : fgData.pitch_deg = 0)
    (hheading : fgData.heading_deg = 0)
    (hdec : G.get_mag_declination fgData.latitude_deg fgData.longitude_deg = 0)
    (hinc : G.get_mag_inclination fgData.latitude_deg fgData.longitude_deg = 0) :
    getMagneticField L G fgData =
      ⟨0.01 * G.get_mag_strength fgData.latitude_deg fgData.longitude_deg, 0, 0⟩ := by
  obtain ⟨h1, h2, h3⟩ := ofAxisAngle_zero L hsin hcos hsqrt
  simp [getMagneticField, hroll, hpitch, hheading, degToRad_zero, h1, h2, h3, mul_identity,
    RotateVector_identity, hdec, hinc, hsin, hcos, htan]

/-- C6: when roll, pitch and heading are zero, `getGyro` returns the input rates without any
rotation, for every triple of rates: the X, Y and Z components are the roll, pitch and yaw
rate, each converted by `degToRad`.  The `<cmath>` functions enter only through `sin 0 = 0`,
`cos 0 = 1` and `sqrt 1 = 1`. -/
theorem getGyro_zero_attitude (L : CMath F) (hsin : L.sin 0 = 0) (hcos : L.cos 0 = 1)
    (hsqrt : L.sqrt 1 = 1) (fgData : fgOutputData F) (hroll : fgData.roll_deg = 0)
    (hpitch : fgData.pitch_deg = 0) (hheading : fgData.heading_deg = 0) :
    getGyro L fgData = ⟨degToRad fgData.rateRoll_degps, degToRad fgData.ratePitch_degps,
      degToRad fgData.rateYaw_degps⟩ := by
  obtain ⟨h1, h2, h3⟩ := ofAxisAngle_zero L hsin hcos hsqrt
  simp [getGyro, hroll, hpitch, hheading, degToRad_zero, h1, h2, h3, mul_identity,
    RotateVector_identity, Vector3d.add]

/-- C7, amended: when roll, pitch and heading are zero and the geomagnetic lookup returns
declination 0 and inclination 0, `getMagneticField` returns `[0.01 * strength, 0, 0]`, where
`strength` is the field strength the lookup returns for the latitude and longitude of the
sample. -/
theorem getMagneticField_zero_attitude (L : CMath F) (G : GeoMag F) (hsin : L.sin 0 = 0)
    (hcos : L.cos 0 = 1) (htan : L.tan 0 = 0) (hsqrt : L.sqrt 1 = 1)
    (fgData : fgOutputData F) (hroll : fgData.roll_deg = 0) (hpitch : fgData.pitch_deg = 0)
    (hheading : fgData.heading_deg = 0)
    (hdec : G.get_mag_declination fgData.latitude_deg fgData.longitude_deg = 0)
    (hinc : G.get_mag_inclination fgData.latitude_deg fgData.longitude_deg = 0) :
    getMagneticField L G fgData =
      ⟨0.01 * G.get_mag_strength fgData.latitude_deg fgData.longitude_deg, 0, 0⟩ :=
  getMagneticField_zero L G hsin hcos htan hsqrt fgData hroll hpitch hheading hdec hinc

end ZeroAttitude

/-- C6, at a concrete input: a level sample with rates of 90, 45 and -30 degrees per second,
with the exact `<cmath>`. -/
theorem getGyro_zero_attitude_witness :
    getGyro CMath.real (turningSample ℝ) = ⟨degToRad 90, degToRad 45, degToRad (-30)⟩ :=
  getGyro_zero_attitude CMath.real Real.sin_zero Real.cos_zero Real.sqrt_one (turningSample ℝ)
    rfl rfl rfl

/-- C7, as stated, fails: with a lookup that returns the strength 50 (and declination and
inclination 0) the field at zero attitude is `[0.5, 0, 0]`, not `[50, 0, 0]`. -/
theorem getMagneticField_not_lookup_strength :
    getMagneticField CMath.real (flatGeoMag ℝ) (zeroSample ℝ) = ⟨0.5, 0, 0⟩ ∧
    getMagneticField CMath.real (flatGeoMag ℝ) (zeroSample ℝ) ≠
      ⟨(flatGeoMag ℝ).get_mag_strength (zeroSample ℝ).latitude_deg
        (zeroSample ℝ).longitude_deg, 0, 0⟩ := by
  have h := getMagneticField_zero CMath.real (flatGeoMag ℝ) Real.sin_zero Real.cos_zero
    Real.tan_zero Real.sqrt_one (zeroSample ℝ) rfl rfl rfl rfl rfl
  have e : (0.01 : ℝ) * (flatGeoMag ℝ).get_mag_strength (zeroSample ℝ).latitude_deg
      (zeroSample ℝ).longitude_deg = 0.5 := by
    norm_num [flatGeoMag]
  rw [e] at h
  refine ⟨h, ?_⟩
  rw [h]
  intro hc
  have hx := congrArg Vector3d.x hc
  norm_num [flatGeoMag] at hx

/-- C7, amended, at a concrete input: the lookup that returns the strength 50 everywhere, with
the exact `<cmath>`. -/
theorem getMagneticField_zero_attitude_witness :
    getMagneticField CMath.real (flatGeoMag ℝ) (zeroSample ℝ) = ⟨0.01 * 50, 0, 0⟩ :=
  getMagneticField_zero_attitude CMath.real (flatGeoMag ℝ) Real.sin_zero Real.cos_zero
    Real.tan_zero Real.sqrt_one (zeroSample ℝ) rfl rfl rfl rfl rfl

/-! ## `setSensorMsg` and `setFGData` -/

section Ticks

variable {F : Type} [LinearOrderedField F] [FloorRing F]

/-- The call `setSensorMsg` is defined when the conversion of the timestamp is; it changes
neither `lastTime` nor the position record nor the control outputs. -/
theorem setSensorMsg_some (L : CMath F) (G : GeoMag F) (st : VehicleState F)
    (fgData : fgOutputData F) (t : Int) (ht : toUInt64 (dmul fgData.elapsed_sec 1e6) = some t) :
    ∃ st', setSensorMsg L G st fgData = some st' ∧ st'.lastTime = st.lastTime ∧
      st'.hil_gps_msg = st.hil_gps_msg ∧ st'.FGControls = st.FGControls ∧
      st'.sensor_msg.time_usec = t := by
  simp [setSensorMsg, ht, stdNormal]

/-- When `setSensorMsg` is defined the conversion of the timestamp is, and `lastTime` is
kept. -/
theorem setSensorMsg_some_inv (L : CMath F) (G : GeoMag F) (st st' : VehicleState F)
    (fgData : fgOutputData F) (h : setSensorMsg L G st fgData = some st') :
    (∃ t, toUInt64 (dmul fgData.elapsed_sec 1e6) = some t) ∧ st'.lastTime = st.lastTime := by
  unfold setSensorMsg at h
  split at h
  · cases h
  · next t ht =>
    simp only [stdNormal] at h
    cases h
    exact ⟨⟨t, ht⟩, rfl⟩

/-- The call `setGPSMsg` changes neither `lastTime` nor the sensor record nor the generator. -/
theorem setGPSMsg_frame (L : CMath F) (st st' : VehicleState F) (fgData : fgOutputData F)
    (h : setGPSMsg L st fgData = some st') :
    st'.lastTime = st.lastTime ∧ st'.sensor_msg = st.sensor_msg ∧ st'.gen = st.gen := by
  obtain ⟨t, lat, lon, alt, vn, ve, vd, vel, cog, -, -, -, -, -, -, -, -, -, rfl⟩ :=
    setGPSMsg_some_inv L st st' fgData h
  exact ⟨rfl, rfl, rfl⟩

/-- The position record `setGPSMsg` stores does not depend on the state it is called in. -/
theorem setGPSMsg_transfer (L : CMath F) (st st' s : VehicleState F) (fgData : fgOutputData F)
    (h : setGPSMsg L st fgData = some s) :
    setGPSMsg L st' fgData = some { st' with hil_gps_msg := s.hil_gps_msg } := by
  obtain ⟨t, lat, lon, alt, vn, ve, vd, vel, cog, ht, hlat, hlon, halt, hvn, hve, hvd, hvel,
    hcog, rfl⟩ := setGPSMsg_some_inv L st s fgData h
  exact setGPSMsg_eq_some L st' fgData ht hlat hlon halt hvn hve hvd hvel hcog

/-- Two calls of `setGPSMsg` on one sample store the same position record. -/
theorem setGPSMsg_map_eq (L : CMath F) (st st' : VehicleState F) (fgData : fgOutputData F) :
    (setGPSMsg L st fgData).map (fun s => s.hil_gps_msg) =
      (setGPSMsg L st' fgData).map (fun s => s.hil_gps_msg) := by
  cases h : setGPSMsg L st fgData with
  | some s => rw [setGPSMsg_transfer L st st' s fgData h]; rfl
  | none =>
    cases h' : setGPSMsg L st' fgData with
    | none => rfl
    | some s' =>
      rw [setGPSMsg_transfer L st' st s' fgData h'] at h
      cases h

/-- The call `setFGData` is the rate estimate followed by `setSensorMsg` and `setGPSMsg` in a
state whose `lastTime` is the timestamp of the sample. -/
theorem setFGData_eq (L : CMath F) (G : GeoMag F) (st : VehicleState F)
    (fgData : fgOutputData F) :
    setFGData L G st fgData =
      ((setSensorMsg L G { st with lastTime := fgData.elapsed_sec } fgData).bind
        fun s => setGPSMsg L s fgData).map
        fun s => (s, ⟨rateEstimate st fgData, freqDiagnostic (rateEstimate st fgData)⟩) := by
  simp only [setFGData]
  cases h1 : setSensorMsg L G { st with lastTime := fgData.elapsed_sec } fgData with
  | none => simp
  | some s2 => cases h2 : setGPSMsg L s2 fgData <;> simp [h2]

/-- After a call of `setFGData`, `lastTime` is the timestamp of the sample; the rate the call
computed is the estimate from the `lastTime` it found. -/
theorem setFGData_lastTime (L : CMath F) (G : GeoMag F) (st st' : VehicleState F)
    (fgData : fgOutputData F) (tr : FGTrace F) (h : setFGData L G st fgData = some (st', tr)) :
    st'.lastTime = fgData.elapsed_sec ∧ tr.freq = rateEstimate st fgData ∧
      tr.cout = freqDiagnostic (rateEstimate st fgData) := by
  rw [setFGData_eq] at h
  simp only [Option.map_eq_some', Option.bind_eq_some, Prod.mk.injEq] at h
  obtain ⟨s3, ⟨s2, h2, h3⟩, h4, h5⟩ := h
  obtain ⟨_, hl⟩ := setSensorMsg_some_inv L G _ s2 fgData h2
  obtain ⟨hl2, -, -⟩ := setGPSMsg_frame L s2 s3 fgData h3
  rw [← h4, ← h5, hl2, hl]
  exact ⟨rfl, rfl, rfl⟩

omit [FloorRing F] in
/-- The rate estimate of a sample whose timestamp is `lastTime` divides by zero. -/
theorem rateEstimate_equal (st : VehicleState F) (fgData : fgOutputData F)
    (h : fgData.elapsed_sec = st.lastTime) : rateEstimate st fgData = none := by
  simp [rateEstimate, fdiv, h]

/-- C8, amended: for any two consecutive `setFGData` calls whose samples have equal
`elapsed_sec`, the second call divides by zero, so that its rate has no finite value (IEEE
gives an infinity), and prints nothing; that apart it is `setSensorMsg` followed by
`setGPSMsg` on its sample, as for any other sample. -/
theorem setFGData_equal_timestamps (L : CMath F) (G : GeoMag F) (st st1 : VehicleState F)
    (tr1 : FGTrace F) (fg1 fg2 : fgOutputData F)
    (h1 : setFGData L G st fg1 = some (st1, tr1))
    (heq : fg2.elapsed_sec = fg1.elapsed_sec) :
    fg2.elapsed_sec - st1.lastTime = 0 ∧ rateEstimate st1 fg2 = none ∧
    setFGData L G st1 fg2 =
      ((setSensorMsg L G { st1 with lastTime := fg2.elapsed_sec } fg2).bind
        fun s => setGPSMsg L s fg2).map fun s => (s, ⟨none, none⟩) := by
  obtain ⟨hl, -, -⟩ := setFGData_lastTime L G st st1 fg1 tr1 h1
  have hr : rateEstimate st1 fg2 = none := rateEstimate_equal st1 fg2 (by rw [hl, heq])
  refine ⟨by rw [hl, heq, sub_self], hr, ?_⟩
  rw [setFGData_eq, hr]
  rfl

/-- C10: if the seven noise standard deviations are zero, the sensor record and the position
record that `setSensorMsg` and `setGPSMsg` produce for a sample are the same in any two states,
whatever their generators (and the rest of their content) are. -/
theorem zero_noise_deterministic (L : CMath F) (G : GeoMag F) (st st' : VehicleState F)
    (fgData : fgOutputData F) (hz : noiseFree st) (hz' : noiseFree st') :
    (setSensorMsg L G st fgData).map (fun s => s.sensor_msg) =
      (setSensorMsg L G st' fgData).map (fun s => s.sensor_msg) ∧
    (setGPSMsg L st fgData).map (fun s => s.hil_gps_msg) =
      (setGPSMsg L st' fgData).map (fun s => s.hil_gps_msg) := by
  obtain ⟨a1, a2, a3, a4, a5, a6, a7⟩ := hz
  obtain ⟨b1, b2, b3, b4, b5, b6, b7⟩ := hz'
  refine ⟨?_, setGPSMsg_map_eq L st st' fgData⟩
  unfold setSensorMsg
  cases toUInt64 (dmul fgData.elapsed_sec 1e6) with
  | none => rfl
  | some t => simp [stdNormal, a1, a2, a3, a4, a5, a6, a7, b1, b2, b3, b4, b5, b6, b7]

end Ticks

/-- The timestamp of the one-second sample converts to 1000000 microseconds. -/
theorem tickSample_time : toUInt64 (dmul (tickSample ℝ).elapsed_sec 1e6) = some 1000000 := by
  have e : (tickSample ℝ).elapsed_sec = 1 := rfl
  rw [e, dmul_second]
  apply toIntegral_eq_of_nonneg <;> norm_num

/-- The call `setGPSMsg` is defined on the one-second sample, in every state. -/
theorem setGPSMsg_tick_defined (st : VehicleState ℝ) :
    ∃ st', setGPSMsg CMath.real st (tickSample ℝ) = some st' := by
  obtain ⟨-, z2, z3, z4⟩ := zero_conversions
  obtain ⟨c, hc, -, -⟩ := cogField_defined 0 0
  have hv := (groundSpeed_real 0 0 (by decide) (by decide) (by decide)).1
  exact ⟨_, setGPSMsg_eq_some CMath.real st (tickSample ℝ) tickSample_time z2 z2 z3 z4 z4 z4
    hv hc⟩

/-- The call `setFGData` is defined on the one-second sample, in every state. -/
theorem setFGData_tick_defined (st : VehicleState ℝ) :
    ∃ st' tr, setFGData CMath.real (flatGeoMag ℝ) st (tickSample ℝ) = some (st', tr) := by
  obtain ⟨s2, h2, -⟩ := setSensorMsg_some CMath.real (flatGeoMag ℝ)
    { st with lastTime := (tickSample ℝ).elapsed_sec } (tickSample ℝ) 1000000 tickSample_time
  obtain ⟨s3, h3⟩ := setGPSMsg_tick_defined s2
  rw [setFGData_eq, h2]
  simp only [Option.some_bind]
  rw [h3]
  exact ⟨_, _, rfl⟩

/-- C8, as stated, fails: two consecutive calls on the one-second sample are both defined, and
the rate of the second has no finite value, its divisor being zero. -/
theorem setFGData_equal_timestamps_zero_divisor :
    ∃ st1 tr1 st2 tr2,
      setFGData CMath.real (flatGeoMag ℝ) (blankState 0 0) (tickSample ℝ) = some (st1, tr1) ∧
      setFGData CMath.real (flatGeoMag ℝ) st1 (tickSample ℝ) = some (st2, tr2) ∧
      (tickSample ℝ).elapsed_sec - st1.lastTime = 0 ∧ tr2.freq = none := by
  obtain ⟨st1, tr1, h1⟩ := setFGData_tick_defined (blankState 0 0)
  obtain ⟨st2, tr2, h2⟩ := setFGData_tick_defined st1
  obtain ⟨hl, -, -⟩ := setFGData_lastTime _ _ _ _ _ _ h1
  obtain ⟨-, hf, -⟩ := setFGData_lastTime _ _ _ _ _ _ h2
  refine ⟨st1, tr1, st2, tr2, h1, h2, by rw [hl, sub_self], ?_⟩
  rw [hf]
  exact rateEstimate_equal st1 (tickSample ℝ) hl.symm

/-- C8, amended, at a concrete input: two consecutive calls on the one-second sample. -/
theorem setFGData_equal_timestamps_witness :
    ∃ st1 tr1 st2,
      setFGData CMath.real (flatGeoMag ℝ) (blankState 0 0) (tickSample ℝ) = some (st1, tr1) ∧
      rateEstimate st1 (tickSample ℝ) = none ∧
      setFGData CMath.real (flatGeoMag ℝ) st1 (tickSample ℝ) = some (st2, ⟨none, none⟩) := by
  obtain ⟨st1, tr1, h1⟩ := setFGData_tick_defined (blankState 0 0)
  obtain ⟨-, hr, h2⟩ := setFGData_equal_timestamps CMath.real (flatGeoMag ℝ) (blankState 0 0)
    st1 tr1 (tickSample ℝ) (tickSample ℝ) h1 rfl
  obtain ⟨s2, hs2, -⟩ := setSensorMsg_some CMath.real (flatGeoMag ℝ)
    { st1 with lastTime := (tickSample ℝ).elapsed_sec } (tickSample ℝ) 1000000 tickSample_time
  obtain ⟨s3, hs3⟩ := setGPSMsg_tick_defined s2
  refine ⟨st1, tr1, s3, h1, hr, ?_⟩
  rw [h2, hs2]
  simp only [Option.some_bind]
  rw [hs3]
  rfl

/-- C10, at a concrete input: two states without noise whose generators return 1 and -3 at
every call produce the same records for the one-second sample, and do produce them. -/
theorem zero_noise_deterministic_witness :
    ((setSensorMsg CMath.real (flatGeoMag ℝ) (blankState 0 1) (tickSample ℝ)).map
        (fun s => s.sensor_msg) =
      (setSensorMsg CMath.real (flatGeoMag ℝ) (blankState 5 (-3)) (tickSample ℝ)).map
        (fun s => s.sensor_msg) ∧
    (setGPSMsg CMath.real (blankState 0 1) (tickSample ℝ)).map (fun s => s.hil_gps_msg) =
      (setGPSMsg CMath.real (blankState 5 (-3)) (tickSample ℝ)).map
        (fun s => s.hil_gps_msg)) ∧
    (setSensorMsg CMath.real (flatGeoMag ℝ) (blankState 0 1) (tickSample ℝ)).isSome = true ∧
    (setGPSMsg CMath.real (blankState 0 1) (tickSample ℝ)).isSome = true := by
  refine ⟨zero_noise_deterministic CMath.real (flatGeoMag ℝ) (blankState 0 1)
    (blankState 5 (-3)) (tickSample ℝ) ⟨rfl, rfl, rfl, rfl, rfl, rfl, rfl⟩
    ⟨rfl, rfl, rfl, rfl, rfl, rfl, rfl⟩, ?_, ?_⟩
  · obtain ⟨s, hs, -⟩ := setSensorMsg_some CMath.real (flatGeoMag ℝ) (blankState 0 1)
      (tickSample ℝ) 1000000 tickSample_time
    rw [hs]
    rfl
  · obtain ⟨s, hs⟩ := setGPSMsg_tick_defined (blankState 0 1)
    rw [hs]
    rfl

/-! ## Algebra of the rotation class -/

section QuatAlgebra
variable {F : Type} [LinearOrderedField F]

/-- The inverse of a quaternion of norm 1 is its conjugate. -/
theorem Inverse_of_unit (q : Quaterniond F) (h : q.normSq = 1) :
    Quaterniond.Inverse q = q.conj := by
  have hs : q.qw * q.qw + q.qx * q.qx + q.qy * q.qy + q.qz * q.qz = 1 := h
  simp [Quaterniond.Inverse, hs, equal_one_zero, Quaterniond.conj]

/-- The squared norm of a product is the product of the squared norms. -/
theorem normSq_mul (a b : Quaterniond F) :
    (Quaterniond.mul a b).normSq = a.normSq * b.normSq := by
  simp only [Quaterniond.mul, Quaterniond.normSq]
  ring

/-- The reverse rotation by a product of unit quaternions is the reverse rotation by the left
factor followed by the one by the right factor. -/
theorem RotateVectorReverse_mul (a b : Quaterniond F) (ha : a.normSq = 1) (hb : b.normSq = 1)
    (v : Vector3d F) :
    (Quaterniond.mul a b).RotateVectorReverse v =
      b.RotateVectorReverse (a.RotateVectorReverse v) := by
  have hab : (Quaterniond.mul a b).normSq = 1 := by rw [normSq_mul, ha, hb, mul_one]
  simp only [Quaterniond.RotateVectorReverse, Inverse_of_unit _ ha, Inverse_of_unit _ hb,
    Inverse_of_unit _ hab]
  simp only [Quaterniond.mul, Quaterniond.conj, Vector3d.mk.injEq]
  refine ⟨?_, ?_, ?_⟩ <;> ring

/-- The reverse rotation by a unit quaternion undoes the rotation by it. -/
theorem RotateVectorReverse_RotateVector (q : Quaterniond F) (hq : q.normSq = 1)
    (v : Vector3d F) : q.RotateVectorReverse (q.RotateVector v) = v := by
  have hs : q.qw * q.qw + q.qx * q.qx + q.qy * q.qy + q.qz * q.qz = 1 := hq
  cases v with
  | mk x y z =>
    simp only [Quaterniond.RotateVectorReverse, Quaterniond.RotateVector, Inverse_of_unit _ hq]
    simp only [Quaterniond.mul, Quaterniond.conj, Vector3d.mk.injEq]
    refine ⟨?_, ?_, ?_⟩
    · linear_combination (x * (q.qw * q.qw + q.qx * q.qx + q.qy * q.qy + q.qz * q.qz + 1)) * hs
    · linear_combination (y * (q.qw * q.qw + q.qx * q.qx + q.qy * q.qy + q.qz * q.qz + 1)) * hs
    · linear_combination (z * (q.qw * q.qw + q.qx * q.qx + q.qy * q.qy + q.qz * q.qz + 1)) * hs

/-- The reverse rotation by a unit quaternion keeps the squared norm of a vector. -/
theorem RotateVectorReverse_normSq (q : Quaterniond F) (hq : q.normSq = 1) (v : Vector3d F) :
    (q.RotateVectorReverse v).normSq = v.normSq := by
  have hs : q.qw * q.qw + q.qx * q.qx + q.qy * q.qy + q.qz * q.qz = 1 := hq
  simp only [Quaterniond.RotateVectorReverse, Inverse_of_unit _ hq]
  simp only [Quaterniond.mul, Quaterniond.conj, Vector3d.normSq]
  linear_combination ((v.x * v.x + v.y * v.y + v.z * v.z) *
    (q.qw * q.qw + q.qx * q.qx + q.qy * q.qy + q.qz * q.qz + 1)) * hs

end QuatAlgebra

/-! ## The axis rotations in exact real arithmetic -/

section RealRot

/-- The quaternion of a rotation by `φ` about a coordinate axis, with the exact `<cmath>`. -/
theorem ofAxisAngle_real (φ : ℝ) :
    Quaterniond.ofAxisAngle CMath.real ⟨1, 0, 0⟩ φ =
      ⟨Real.cos (φ * 0.5), Real.sin (φ * 0.5), 0, 0⟩ ∧
    Quaterniond.ofAxisAngle CMath.real ⟨0, 1, 0⟩ φ =
      ⟨Real.cos (φ * 0.5), 0, Real.sin (φ * 0.5), 0⟩ ∧
    Quaterniond.ofAxisAngle CMath.real ⟨0, 0, 1⟩ φ =
      ⟨Real.cos (φ * 0.5), 0, 0, Real.sin (φ * 0.5)⟩ := by
  have h1 : Real.cos (φ * 0.5) * Real.cos (φ * 0.5) + Real.sin (φ * 0.5) * Real.sin (φ * 0.5)
      = 1 := by
    have := Real.sin_sq_add_cos_sq (φ * 0.5)
    nlinarith
  refine ⟨?_, ?_, ?_⟩ <;>
    simp [Quaterniond.ofAxisAngle, Quaterniond.Normalize, CMath.real, equal_one_zero, h1]

/-- The quaternions of the rotations about the coordinate axes have norm 1. -/
theorem axis_normSq (φ : ℝ) :
    (⟨Real.cos (φ * 0.5), Real.sin (φ * 0.5), 0, 0⟩ : Quaterniond ℝ).normSq = 1 ∧
    (⟨Real.cos (φ * 0.5), 0, Real.sin (φ * 0.5), 0⟩ : Quaterniond ℝ).normSq = 1 ∧
    (⟨Real.cos (φ * 0.5), 0, 0, Real.sin (φ * 0.5)⟩ : Quaterniond ℝ).normSq = 1 := by
  have := Real.sin_sq_add_cos_sq (φ * 0.5)
  refine ⟨?_, ?_, ?_⟩ <;> simp only [Quaterniond.normSq] <;> nlinarith

/-- Cosine and sine of an angle from those of its half. -/
theorem half_angle (φ : ℝ) :
    Real.cos φ = Real.cos (φ * 0.5) * Real.cos (φ * 0.5) -
      Real.sin (φ * 0.5) * Real.sin (φ * 0.5) ∧
    Real.sin φ = 2 * Real.sin (φ * 0.5) * Real.cos (φ * 0.5) := by
  have e : φ = 2 * (φ * 0.5) := by ring
  constructor
  · conv_lhs => rw [e]
    rw [Real.cos_two_mul, ← Real.sin_sq_add_cos_sq (φ * 0.5)]
    ring
  · conv_lhs => rw [e]
    rw [Real.sin_two_mul]

/-- The reverse rotation by the roll quaternion. -/
theorem RotateVectorReverse_x (φ : ℝ) (v : Vector3d ℝ) :
    (⟨Real.cos (φ * 0.5), Real.sin (φ * 0.5), 0, 0⟩ : Quaterniond ℝ).RotateVectorReverse v =
      ⟨v.x, v.y * Real.cos φ + v.z * Real.sin φ, -v.y * Real.sin φ + v.z * Real.cos φ⟩ := by
  obtain ⟨hc, hs⟩ := half_angle φ
  have h1 := Real.sin_sq_add_cos_sq (φ * 0.5)
  rw [Quaterniond.RotateVectorReverse, Inverse_of_unit _ (axis_normSq φ).1, hc, hs]
  simp only [Quaterniond.mul, Quaterniond.conj, Vector3d.mk.injEq]
  refine ⟨?_, ?_, ?_⟩
  · linear_combination v.x * h1
  · ring
  · ring

/-- The reverse rotation by the pitch quaternion. -/
theorem RotateVectorReverse_y (θ : ℝ) (v : Vector3d ℝ) :
    (⟨Real.cos (θ * 0.5), 0, Real.sin (θ * 0.5), 0⟩ : Quaterniond ℝ).RotateVectorReverse v =
      ⟨v.x * Real.cos θ - v.z * Real.sin θ, v.y, v.x * Real.sin θ + v.z * Real.cos θ⟩ := by
  obtain ⟨hc, hs⟩ := half_angle θ
  have h1 := Real.sin_sq_add_cos_sq (θ * 0.5)
  rw [Quaterniond.RotateVectorReverse, Inverse_of_unit _ (axis_normSq θ).2.1, hc, hs]
  simp only [Quaterniond.mul, Quaterniond.conj, Vector3d.mk.injEq]
  refine ⟨?_, ?_, ?_⟩
  · ring
  · linear_combination v.y * h1
  · ring

/-- The reverse rotation by the heading quaternion. -/
theorem RotateVectorReverse_z (ψ : ℝ) (v : Vector3d ℝ) :
    (⟨Real.cos (ψ * 0.5), 0, 0, Real.sin (ψ * 0.5)⟩ : Quaterniond ℝ).RotateVectorReverse v =
      ⟨v.x * Real.cos ψ + v.y * Real.sin ψ, -v.x * Real.sin ψ + v.y * Real.cos ψ, v.z⟩ := by
  obtain ⟨hc, hs⟩ := half_angle ψ
  have h1 := Real.sin_sq_add_cos_sq (ψ * 0.5)
  rw [Quaterniond.RotateVectorReverse, Inverse_of_unit _ (axis_normSq ψ).2.2, hc, hs]
  simp only [Quaterniond.mul, Quaterniond.conj, Vector3d.mk.injEq]
  refine ⟨?_, ?_, ?_⟩
  · ring
  · ring
  · linear_combination v.z * h1

/-- The composed body rotation, applied in reverse, is the reverse heading rotation followed
by the reverse pitch rotation and the reverse roll rotation. -/
theorem bodyRot_reverse (φ θ ψ : ℝ) (v : Vector3d ℝ) :
    (Quaterniond.mul
      (Quaterniond.mul (Quaterniond.ofAxisAngle CMath.real ⟨0, 0, 1⟩ ψ)
        (Quaterniond.ofAxisAngle CMath.real ⟨0, 1, 0⟩ θ))
      (Quaterniond.ofAxisAngle CMath.real ⟨1, 0, 0⟩ φ)).RotateVectorReverse v =
    (Quaterniond.ofAxisAngle CMath.real ⟨1, 0, 0⟩ φ).RotateVectorReverse
      ((Quaterniond.ofAxisAngle CMath.real ⟨0, 1, 0⟩ θ).RotateVectorReverse
        ((Quaterniond.ofAxisAngle CMath.real ⟨0, 0, 1⟩ ψ).RotateVectorReverse v)) := by
  have hx : (Quaterniond.ofAxisAngle CMath.real ⟨1, 0, 0⟩ φ).normSq = 1 := by
    rw [(ofAxisAngle_real φ).1]; exact (axis_normSq φ).1
  have hy : (Quaterniond.ofAxisAngle CMath.real ⟨0, 1, 0⟩ θ).normSq = 1 := by
    rw [(ofAxisAngle_real θ).2.1]; exact (axis_normSq θ).2.1
  have hz : (Quaterniond.ofAxisAngle CMath.real ⟨0, 0, 1⟩ ψ).normSq = 1 := by
    rw [(ofAxisAngle_real ψ).2.2]; exact (axis_normSq ψ).2.2
  rw [RotateVectorReverse_mul _ _ (by rw [normSq_mul, hz, hy, mul_one]) hx,
    RotateVectorReverse_mul _ _ hz hy]

/-- The result of `getGyro` with the exact `<cmath>`, in closed form. -/
theorem getGyro_closed (fgData : fgOutputData ℝ) :
    getGyro CMath.real fgData =
      ⟨degToRad fgData.rateRoll_degps -
          degToRad fgData.rateYaw_degps * Real.sin (degToRad fgData.pitch_deg),
        degToRad fgData.ratePitch_degps * Real.cos (degToRad fgData.roll_deg) +
          degToRad fgData.rateYaw_degps * Real.cos (degToRad fgData.pitch_deg) *
            Real.sin (degToRad fgData.roll_deg),
        -degToRad fgData.ratePitch_degps * Real.sin (degToRad fgData.roll_deg) +
          degToRad fgData.rateYaw_degps * Real.cos (degToRad fgData.pitch_deg) *
            Real.cos (degToRad fgData.roll_deg)⟩ := by
  have hz : (Quaterniond.ofAxisAngle CMath.real ⟨0, 0, 1⟩ (degToRad fgData.heading_deg)).normSq
      = 1 := by
    rw [(ofAxisAngle_real _).2.2]; exact (axis_normSq _).2.2
  simp only [getGyro]
  rw [bodyRot_reverse, bodyRot_reverse, RotateVectorReverse_RotateVector _ hz]
  rw [(ofAxisAngle_real _).1, (ofAxisAngle_real _).2.1, (ofAxisAngle_real _).2.2]
  simp only [RotateVectorReverse_x, RotateVectorReverse_y, RotateVectorReverse_z, Vector3d.add,
    Vector3d.mk.injEq]
  refine ⟨?_, ?_, ?_⟩ <;> ring

end RealRot

/-! ## The magnetic field in exact real arithmetic -/

section RealMag

/-- The result of `getMagneticField` with the exact `<cmath>`: the earth-frame field rotated
in reverse by the heading, the pitch and the roll quaternion. -/
theorem getMagneticField_rot (G : GeoMag ℝ) (fgData : fgOutputData ℝ) :
    getMagneticField CMath.real G fgData =
      (⟨Real.cos (degToRad fgData.roll_deg * 0.5), Real.sin (degToRad fgData.roll_deg * 0.5),
          0, 0⟩ : Quaterniond ℝ).RotateVectorReverse
        ((⟨Real.cos (degToRad fgData.pitch_deg * 0.5), 0,
            Real.sin (degToRad fgData.pitch_deg * 0.5), 0⟩ : Quaterniond ℝ).RotateVectorReverse
          ((⟨Real.cos (degToRad fgData.heading_deg * 0.5), 0, 0,
              Real.sin (degToRad fgData.heading_deg * 0.5)⟩ :
              Quaterniond ℝ).RotateVectorReverse
            ⟨0.01 * G.get_mag_strength fgData.latitude_deg fgData.longitude_deg *
                Real.cos (G.get_mag_inclination fgData.latitude_deg fgData.longitude_deg *
                  3.14159265 / 180) *
                Real.cos (G.get_mag_declination fgData.latitude_deg fgData.longitude_deg *
                  3.14159265 / 180),
              0.01 * G.get_mag_strength fgData.latitude_deg fgData.longitude_deg *
                Real.cos (G.get_mag_inclination fgData.latitude_deg fgData.longitude_deg *
                  3.14159265 / 180) *
                Real.sin (G.get_mag_declination fgData.latitude_deg fgData.longitude_deg *
                  3.14159265 / 180),
              0.01 * G.get_mag_strength fgData.latitude_deg fgData.longitude_deg *
                Real.cos (G.get_mag_inclination fgData.latitude_deg fgData.longitude_deg *
                  3.14159265 / 180) *
                Real.tan (G.get_mag_inclination fgData.latitude_deg fgData.longitude_deg *
                  3.14159265 / 180)⟩)) := by
  simp only [getMagneticField]
  rw [bodyRot_reverse]
  rw [(ofAxisAngle_real _).1, (ofAxisAngle_real _).2.1, (ofAxisAngle_real _).2.2]
  rfl

/-- The squared norm and the norm of the field `getMagneticField` returns. -/
theorem getMagneticField_normSq (G : GeoMag ℝ) (fgData : fgOutputData ℝ)
    (hcos : Real.cos (G.get_mag_inclination fgData.latitude_deg fgData.longitude_deg *
      3.14159265 / 180) ≠ 0) :
    (getMagneticField CMath.real G fgData).normSq =
      (0.01 * G.get_mag_strength fgData.latitude_deg fgData.longitude_deg) ^ 2 ∧
    Real.sqrt (getMagneticField CMath.real G fgData).normSq =
      |0.01 * G.get_mag_strength fgData.latitude_deg fgData.longitude_deg| := by
  have h : (getMagneticField CMath.real G fgData).normSq =
      (0.01 * G.get_mag_strength fgData.latitude_deg fgData.longitude_deg) ^ 2 := by
    rw [getMagneticField_rot, RotateVectorReverse_normSq _ (axis_normSq _).1,
      RotateVectorReverse_normSq _ (axis_normSq _).2.1,
      RotateVectorReverse_normSq _ (axis_normSq _).2.2]
    simp only [Vector3d.normSq]
    rw [Real.tan_eq_sin_div_cos]
    have hD := Real.sin_sq_add_cos_sq
      (G.get_mag_declination fgData.latitude_deg fgData.longitude_deg * 3.14159265 / 180)
    have hI := Real.sin_sq_add_cos_sq
      (G.get_mag_inclination fgData.latitude_deg fgData.longitude_deg * 3.14159265 / 180)
    generalize Real.cos (G.get_mag_inclination fgData.latitude_deg fgData.longitude_deg *
      3.14159265 / 180) = cI at *
    generalize Real.sin (G.get_mag_inclination fgData.latitude_deg fgData.longitude_deg *
      3.14159265 / 180) = sI at *
    generalize Real.cos (G.get_mag_declination fgData.latitude_deg fgData.longitude_deg *
      3.14159265 / 180) = cD at *
    generalize Real.sin (G.get_mag_declination fgData.latitude_deg fgData.longitude_deg *
      3.14159265 / 180) = sD at *
    generalize G.get_mag_strength fgData.latitude_deg fgData.longitude_deg = s at *
    field_simp
    linear_combination (0.01 * s) ^ 2 * cI ^ 2 * (cI ^ 2 * hD + hI)
  exact ⟨h, by rw [h, Real.sqrt_sq_eq_abs]⟩

/-- The field `getMagneticField` returns at zero roll and pitch. -/
theorem getMagneticField_level (G : GeoMag ℝ) (fgData : fgOutputData ℝ)
    (hroll : fgData.roll_deg = 0) (hpitch : fgData.pitch_deg = 0) :
    getMagneticField CMath.real G fgData =
      ⟨0.01 * G.get_mag_strength fgData.latitude_deg fgData.longitude_deg *
          Real.cos (G.get_mag_inclination fgData.latitude_deg fgData.longitude_deg *
            3.14159265 / 180) *
          Real.cos (G.get_mag_declination fgData.latitude_deg fgData.longitude_deg *
            3.14159265 / 180 - degToRad fgData.heading_deg),
        0.01 * G.get_mag_strength fgData.latitude_deg fgData.longitude_deg *
          Real.cos (G.get_mag_inclination fgData.latitude_deg fgData.longitude_deg *
            3.14159265 / 180) *
          Real.sin (G.get_mag_declination fgData.latitude_deg fgData.longitude_deg *
            3.14159265 / 180 - degToRad fgData.heading_deg),
        0.01 * G.get_mag_strength fgData.latitude_deg fgData.longitude_deg *
          Real.cos (G.get_mag_inclination fgData.latitude_deg fgData.longitude_deg *
            3.14159265 / 180) *
          Real.tan (G.get_mag_inclination fgData.latitude_deg fgData.longitude_deg *
            3.14159265 / 180)⟩ := by
  rw [getMagneticField_rot, hroll, hpitch, degToRad_zero]
  simp only [RotateVectorReverse_x, RotateVectorReverse_y, RotateVectorReverse_z,
    Real.cos_zero, Real.sin_zero, Real.cos_sub, Real.sin_sub, Vector3d.mk.injEq]
  refine ⟨?_, ?_, ?_⟩ <;> ring

end RealMag

/-! ## The channels of `setSensorMsg` and the unit conversions -/

section Channels

variable {F : Type} [LinearOrderedField F] [FloorRing F]

/-- The state `setSensorMsg` leaves, in closed form: defined exactly when the timestamp
converts, thirteen samples consumed, channel number `k` (from 0) built with sample `k`. -/
theorem setSensorMsg_record (L : CMath F) (G : GeoMag F) (st : VehicleState F)
    (fgData : fgOutputData F) :
    setSensorMsg L G st fgData =
      (toUInt64 (dmul fgData.elapsed_sec 1e6)).map fun t =>
        { st with
          gen := fun n => st.gen (n + 13)
          sensor_msg :=
            { time_usec := t
              xacc := ftToM fgData.accelX_fps + st.acc_nois * st.gen 0
              yacc := ftToM fgData.accelY_fps + st.acc_nois * st.gen 1
              zacc := ftToM fgData.accelZ_fps + st.acc_nois * st.gen 2
              xgyro := (getGyro L fgData).x + st.gyro_nois * st.gen 3
              ygyro := (getGyro L fgData).y + st.gyro_nois * st.gen 4
              zgyro := (getGyro L fgData).z + st.gyro_nois * st.gen 5
              xmag := (getMagneticField L G fgData).x + st.mag_nois * st.gen 6
              ymag := (getMagneticField L G fgData).y + st.mag_nois * st.gen 7
              zmag := (getMagneticField L G fgData).z + st.mag_nois * st.gen 8
              temperature := fgData.temperature_degc + st.temp_nois * st.gen 9
              abs_pressure :=
                fgData.pressure_inhg * 3386.39 / 100.0 + st.abs_pressure_nois * st.gen 10
              pressure_alt := ftToM fgData.pressure_alt_ft + st.baro_alt_nois * st.gen 11
              diff_pressure :=
                (fgData.measured_total_pressure_inhg - fgData.pressure_inhg) * 3386.39 / 100.0 +
                  st.diff_pressure_nois * st.gen 12
              fields_updated := 0x1FFF } } := by
  unfold setSensorMsg
  cases toUInt64 (dmul fgData.elapsed_sec 1e6) with
  | none => rfl
  | some t => rfl

omit [FloorRing F] in
/-- The constructor assigns the noise constants. -/
theorem construct_constructorNoise (mem : VehicleState F) (heap : Nat → F) (cCount : Int)
    (cMap : List Int) (cP : List F) (st : VehicleState F)
    (h : VehicleState.construct mem heap cCount cMap cP = some st) :
    constructorNoise st ∧ st.gen = mem.gen := by
  unfold VehicleState.construct at h
  split at h
  · cases h
    exact ⟨⟨rfl, rfl, rfl, rfl, rfl, rfl, rfl⟩, rfl⟩
  · cases h

/-- C11: for every sample and every stream of standard-normal samples, `setSensorMsg`, in a
state that holds the noise constants of the constructor, sets each scalar channel to its
converted input plus its own sigma times one sample of the stream: the acceleration axes to
`0.3048 * accel_fps + 0.0001 * n`, the temperature to `temperature_degc + 0.01 * n`, the
absolute pressure to `pressure_inhg * 3386.39 / 100 + 0.05 * n`, the differential pressure to
`(measured_total_pressure_inhg - pressure_inhg) * 3386.39 / 100 + 0.01 * n` and the pressure
altitude to `0.3048 * pressure_alt_ft + 0.01 * n`. -/
theorem setSensorMsg_scalar_channels (L : CMath F) (G : GeoMag F) (st st' : VehicleState F)
    (fgData : fgOutputData F) (hn : constructorNoise st)
    (h : setSensorMsg L G st fgData = some st') :
    st'.sensor_msg.xacc = 0.3048 * fgData.accelX_fps + 0.0001 * st.gen 0 ∧
    st'.sensor_msg.yacc = 0.3048 * fgData.accelY_fps + 0.0001 * st.gen 1 ∧
    st'.sensor_msg.zacc = 0.3048 * fgData.accelZ_fps + 0.0001 * st.gen 2 ∧
    st'.sensor_msg.temperature = fgData.temperature_degc + 0.01 * st.gen 9 ∧
    st'.sensor_msg.abs_pressure = fgData.pressure_inhg * 3386.39 / 100 + 0.05 * st.gen 10 ∧
    st'.sensor_msg.diff_pressure =
      (fgData.measured_total_pressure_inhg - fgData.pressure_inhg) * 3386.39 / 100 +
        0.01 * st.gen 12 ∧
    st'.sensor_msg.pressure_alt = 0.3048 * fgData.pressure_alt_ft + 0.01 * st.gen 11 := by
  obtain ⟨a1, -, -, a4, a5, a6, a7⟩ := hn
  rw [setSensorMsg_record, Option.map_eq_some'] at h
  obtain ⟨t, -, rfl⟩ := h
  simp only [a1, a4, a5, a6, a7, ftToM]
  norm_num

/-- C14: after every `setSensorMsg` call the bitmask `fields_updated` is `0x1FFF`, whose bits
0 to 12, one for each of the 13 measured fields, are set, whatever the sample and the noise
drawn. -/
theorem setSensorMsg_fields_updated (L : CMath F) (G : GeoMag F) (st st' : VehicleState F)
    (fgData : fgOutputData F) (h : setSensorMsg L G st fgData = some st') :
    st'.sensor_msg.fields_updated = 0x1FFF ∧
      ∀ i, i < 13 → st'.sensor_msg.fields_updated.testBit i = true := by
  rw [setSensorMsg_record, Option.map_eq_some'] at h
  obtain ⟨t, -, rfl⟩ := h
  refine ⟨rfl, fun i hi => ?_⟩
  show Nat.testBit 0x1FFF i = true
  interval_cases i <;> rfl

omit [FloorRing F] in
/-- C15: `ftToM` and `degToRad` are multiplications by the non-zero factors 0.3048 and
3.141592654 / 180: each is additive and homogeneous, and dividing by the same factor recovers
the input. -/
theorem unit_conversions_linear (x y k : F) :
    ftToM x = 0.3048 * x ∧ (0.3048 : F) ≠ 0 ∧
    ftToM (x + y) = ftToM x + ftToM y ∧ ftToM (k * x) = k * ftToM x ∧
    ftToM x / 0.3048 = x ∧
    degToRad x = 3.141592654 / 180 * x ∧ (3.141592654 / 180 : F) ≠ 0 ∧
    degToRad (x + y) = degToRad x + degToRad y ∧ degToRad (k * x) = k * degToRad x ∧
    degToRad x * 180 / 3.141592654 = x := by
  refine ⟨rfl, by norm_num, ?_, ?_, ?_, ?_, by norm_num, ?_, ?_, ?_⟩
  · simp only [ftToM]; ring
  · simp only [ftToM]; ring
  · simp only [ftToM]; field_simp
  · simp only [degToRad]; ring
  · simp only [degToRad]; ring
  · simp only [degToRad]; ring
  · simp only [degToRad]; field_simp

end Channels

/-! ## The position record and the timestamps -/

section Position

variable {F : Type} [LinearOrderedField F] [FloorRing F]

/-- The truncation of a value between two integers of opposite sign lies between them. -/
theorem truncToInt_range (x : F) (lo hi : Int) (hlo : lo ≤ 0) (hhi : 0 ≤ hi)
    (h1 : (lo : F) ≤ x) (h2 : x ≤ hi) : lo ≤ truncToInt x ∧ truncToInt x ≤ hi := by
  unfold truncToInt
  split
  · next h0 =>
    exact ⟨le_trans hlo (Int.floor_nonneg.mpr h0), Int.floor_le_iff.mpr (by linarith)⟩
  · next h0 =>
    have hx : x ≤ 0 := le_of_lt (not_le.mp h0)
    refine ⟨Int.le_ceil_iff.mpr (by linarith), le_trans (Int.ceil_le.mpr ?_) hhi⟩
    simpa using hx

/-- The conversion of a value between two integers of the range of the type is defined. -/
theorem toIntegral_of_range (lo hi a b : Int) (x : F) (ha : a ≤ 0) (hb : 0 ≤ b)
    (hlo : lo ≤ a) (hhi : b ≤ hi) (h1 : (a : F) ≤ x) (h2 : x ≤ b) :
    toIntegral lo hi x = some (truncToInt x) ∧ a ≤ truncToInt x ∧ truncToInt x ≤ b := by
  obtain ⟨r1, r2⟩ := truncToInt_range x a b ha hb h1 h2
  exact ⟨(toIntegral_some_iff lo hi x _).mpr ⟨rfl, by omega, by omega⟩, r1, r2⟩

end Position

/-- The scaled latitude and longitude of a sample in the geographic range convert to `int32_t`
without overflow. -/
theorem latlon_conversions (lat lon : ℝ) (hlat : -90 ≤ lat ∧ lat ≤ 90)
    (hlon : -180 ≤ lon ∧ lon ≤ 180) :
    (toInt32 (dmul lat 1e7) = some (truncToInt (dmul lat 1e7)) ∧
      -900000000 ≤ truncToInt (dmul lat 1e7) ∧ truncToInt (dmul lat 1e7) ≤ 900000000) ∧
    (toInt32 (dmul lon 1e7) = some (truncToInt (dmul lon 1e7)) ∧
      -1800000000 ≤ truncToInt (dmul lon 1e7) ∧ truncToInt (dmul lon 1e7) ≤ 1800000000) := by
  have b1 : |lat * 1e7| ≤ 900000000 := by
    rw [abs_le]
    constructor <;> norm_num <;> linarith [hlat.1, hlat.2]
  have b2 : |lon * 1e7| ≤ 1800000000 := by
    rw [abs_le]
    constructor <;> norm_num <;> linarith [hlon.1, hlon.2]
  have r1 := truncToInt_abs_lt (dmul lat 1e7) 900000000
    (by simpa [dmul] using roundDouble_abs_lt (lat * 1e7) 900000000 b1 (by norm_num))
  have r2 := truncToInt_abs_lt (dmul lon 1e7) 1800000000
    (by simpa [dmul] using roundDouble_abs_lt (lon * 1e7) 1800000000 b2 (by norm_num))
  exact ⟨⟨(toIntegral_some_iff _ _ _ _).mpr ⟨rfl, by omega, by omega⟩, r1.1, r1.2⟩,
    ⟨(toIntegral_some_iff _ _ _ _).mpr ⟨rfl, by omega, by omega⟩, r2.1, r2.2⟩⟩

/-- The conversions of the fields of the sample at 0.29 seconds. -/
theorem roundingSample_conversions :
    toUInt64 (dmul (roundingSample ℝ).elapsed_sec 1e6) = some 290000 ∧
    toInt32 (dmul (roundingSample ℝ).latitude_deg 1e7) = some 2900000 ∧
    toInt32 (dmul (roundingSample ℝ).longitude_deg 1e7) = some (-1225000000) ∧
    toInt32 (dmul (ftToMDouble (roundingSample ℝ).altitude_ft) 1000) = some 260603 ∧
    toInt16 (dmul (ftToMDouble (roundingSample ℝ).speed_north_fps) 100) = some 3048 ∧
    toInt16 (dmul (ftToMDouble (roundingSample ℝ).speed_east_fps) 100) = some (-1524) ∧
    toInt16 (dmul (ftToMDouble (roundingSample ℝ).speed_down_fps) 100) = some 152 := by
  have e1 : (roundingSample ℝ).elapsed_sec = 5224175567749775 / 18014398509481984 := rfl
  have e2 : (roundingSample ℝ).latitude_deg = 5224175567749775 / 18014398509481984 := rfl
  have e3 : (roundingSample ℝ).longitude_deg = -122.5 := rfl
  have e4 : (roundingSample ℝ).altitude_ft = 855 := rfl
  have e5 : (roundingSample ℝ).speed_north_fps = 100 := rfl
  have e6 : (roundingSample ℝ).speed_east_fps = -50 := rfl
  have e7 : (roundingSample ℝ).speed_down_fps = 5 := rfl
  rw [e1, e2, e3, e4, e5, e6, e7, dmul_time029, dmul_lat029, dmul_lon, ftToMDouble_altitude,
    ftToMDouble_north, ftToMDouble_east, ftToMDouble_down]
  refine ⟨?_, ?_, ?_, ?_, ?_, ?_, ?_⟩
  · apply toIntegral_eq_of_nonneg <;> norm_num
  · apply toIntegral_eq_of_nonneg <;> norm_num
  · apply toIntegral_eq_of_neg <;> norm_num
  · apply toIntegral_eq_of_nonneg <;> norm_num
  · apply toIntegral_eq_of_nonneg <;> norm_num
  · apply toIntegral_eq_of_neg <;> norm_num
  · apply toIntegral_eq_of_nonneg <;> norm_num

/-- The record `setGPSMsg` stores for the sample at 0.29 seconds, in every state. -/
theorem setGPSMsg_roundingSample (st : VehicleState ℝ) :
    ∃ st', setGPSMsg CMath.real st (roundingSample ℝ) = some st' ∧
      st'.hil_gps_msg.time_usec = 290000 ∧ st'.hil_gps_msg.lat = 2900000 ∧
      st'.hil_gps_msg.alt = 260603 := by
  obtain ⟨ct, clat, clon, calt, cvn, cve, cvd⟩ := roundingSample_conversions
  obtain ⟨c, hc, -, -⟩ := cogField_defined 3048 (-1524)
  have hv := (groundSpeed_real 3048 (-1524) (by decide) (by decide) (by decide)).1
  exact ⟨_, setGPSMsg_eq_some CMath.real st (roundingSample ℝ) ct clat clon calt cvn cve cvd
    hv hc, rfl, rfl, rfl⟩

/-- The sample at latitude 0 and longitude 0 moving north at 2000 ft/s has the scaled north
velocity 60960 cm/s, which no 16-bit field holds: the conversion is undefined and `setGPSMsg`
stores no record for it. -/
theorem setGPSMsg_velocity_out_of_range :
    dmul (ftToMDouble (fastNorthSample ℝ).speed_north_fps) 100 = 60960 ∧
    toInt16 (dmul (ftToMDouble (fastNorthSample ℝ).speed_north_fps) 100) = none ∧
    setGPSMsg CMath.real (blankState 0 0) (fastNorthSample ℝ) = none := by
  have e : (fastNorthSample ℝ).speed_north_fps = 2000 := rfl
  have hd : dmul (ftToMDouble (fastNorthSample ℝ).speed_north_fps) 100 = 60960 := by
    rw [e, ftToMDouble_fastNorth]
  have ht : truncToInt (dmul (ftToMDouble (fastNorthSample ℝ).speed_north_fps) 100) = 60960 := by
    rw [hd]
    apply truncToInt_eq_of_nonneg <;> norm_num
  have hn : toInt16 (dmul (ftToMDouble (fastNorthSample ℝ).speed_north_fps) 100) = none := by
    cases h : toInt16 (dmul (ftToMDouble (fastNorthSample ℝ).speed_north_fps) 100) with
    | none => rfl
    | some n =>
      obtain ⟨h1, -, h3⟩ := (toIntegral_some_iff _ _ _ _).mp h
      rw [ht] at h1
      omega
  refine ⟨hd, hn, ?_⟩
  cases h : setGPSMsg CMath.real (blankState 0 0) (fastNorthSample ℝ) with
  | none => rfl
  | some st' =>
    obtain ⟨t, lat, lon, alt, vn, ve, vd, vel, cog, -, -, -, -, hvn, -⟩ :=
      setGPSMsg_some_inv CMath.real _ st' _ h
    rw [hn] at hvn
    cases hvn

/-- C12, as stated, fails: on the sample at latitude 0.29 (the `double`, a little below 0.29)
and altitude 855 ft, which is in the geographic range, `latitude_deg * 10^7` truncates to
2899999 and `0.3048 * altitude_ft * 1000` to 260604, while `setGPSMsg` stores `lat = 2900000`
and `alt = 260603`: the products it truncates are the rounded `double` products 2900000 and
260603.99999999997. -/
theorem setGPSMsg_position_rounding :
    (-90 ≤ (roundingSample ℝ).latitude_deg ∧ (roundingSample ℝ).latitude_deg ≤ 90) ∧
    (-180 ≤ (roundingSample ℝ).longitude_deg ∧ (roundingSample ℝ).longitude_deg ≤ 180) ∧
    truncToInt ((roundingSample ℝ).latitude_deg * 1e7) = 2899999 ∧
    truncToInt (0.3048 * (roundingSample ℝ).altitude_ft * 1000) = 260604 ∧
    ∃ st', setGPSMsg CMath.real (blankState 0 0) (roundingSample ℝ) = some st' ∧
      st'.hil_gps_msg.lat = 2900000 ∧ st'.hil_gps_msg.alt = 260603 := by
  obtain ⟨st', h, -, hlat, halt⟩ := setGPSMsg_roundingSample (blankState 0 0)
  refine ⟨by norm_num [roundingSample], by norm_num [roundingSample], ?_, ?_,
    st', h, hlat, halt⟩
  · apply truncToInt_eq_of_nonneg <;> norm_num [roundingSample]
  · apply truncToInt_eq_of_nonneg <;> norm_num [roundingSample]

/-- C12, amended: for every sample with latitude in [-90, 90] and longitude in [-180, 180]
degrees whose timestamp, scaled altitude and scaled velocities fit their integer fields (`vn`
and `ve` not both -32768), `setGPSMsg` stores `lat` and `lon`, the truncations toward zero of
the `double` products `latitude_deg * 1e7` and `longitude_deg * 1e7`, which fit 32 bits,
`alt`, the truncation of the `double` product `ftToM(altitude_ft) * 1000`, and `vn`, `ve`,
`vd`, the truncations of the `double` products `ftToM(speed_fps) * 100`; a `double` product
(`dmul`) is the exact product rounded to the nearest `double`, and `ftToM(x)` (`ftToMDouble`)
is the `double` product of the literal 0.3048 and `x`. -/
theorem setGPSMsg_position_fields (st : VehicleState ℝ) (fgData : fgOutputData ℝ)
    (t alt vn ve vd : Int)
    (hlat : -90 ≤ fgData.latitude_deg ∧ fgData.latitude_deg ≤ 90)
    (hlon : -180 ≤ fgData.longitude_deg ∧ fgData.longitude_deg ≤ 180)
    (ht : toUInt64 (dmul fgData.elapsed_sec 1e6) = some t)
    (halt : toInt32 (dmul (ftToMDouble fgData.altitude_ft) 1000) = some alt)
    (hvn : toInt16 (dmul (ftToMDouble fgData.speed_north_fps) 100) = some vn)
    (hve : toInt16 (dmul (ftToMDouble fgData.speed_east_fps) 100) = some ve)
    (hvd : toInt16 (dmul (ftToMDouble fgData.speed_down_fps) 100) = some vd)
    (hne : ¬ (vn = -32768 ∧ ve = -32768)) :
    ∃ st', setGPSMsg CMath.real st fgData = some st' ∧
      st'.hil_gps_msg.lat = truncToInt (dmul fgData.latitude_deg 1e7) ∧
      st'.hil_gps_msg.lon = truncToInt (dmul fgData.longitude_deg 1e7) ∧
      (-2147483648 ≤ st'.hil_gps_msg.lat ∧ st'.hil_gps_msg.lat ≤ 2147483647) ∧
      (-2147483648 ≤ st'.hil_gps_msg.lon ∧ st'.hil_gps_msg.lon ≤ 2147483647) ∧
      st'.hil_gps_msg.alt = truncToInt (dmul (ftToMDouble fgData.altitude_ft) 1000) ∧
      st'.hil_gps_msg.vn = truncToInt (dmul (ftToMDouble fgData.speed_north_fps) 100) ∧
      st'.hil_gps_msg.ve = truncToInt (dmul (ftToMDouble fgData.speed_east_fps) 100) ∧
      st'.hil_gps_msg.vd = truncToInt (dmul (ftToMDouble fgData.speed_down_fps) 100) := by
  obtain ⟨⟨clat, lat1, lat2⟩, ⟨clon, lon1, lon2⟩⟩ :=
    latlon_conversions fgData.latitude_deg fgData.longitude_deg hlat hlon
  have rvn := ((toIntegral_some_iff _ _ _ _).mp hvn)
  have rve := ((toIntegral_some_iff _ _ _ _).mp hve)
  have rvd := ((toIntegral_some_iff _ _ _ _).mp hvd)
  have ralt := ((toIntegral_some_iff _ _ _ _).mp halt)
  obtain ⟨hvel, -⟩ := groundSpeed_real vn ve rvn.2 rve.2 hne
  obtain ⟨c, hc, -, -⟩ := cogField_defined vn ve
  refine ⟨_, setGPSMsg_eq_some CMath.real st fgData ht clat clon halt hvn hve hvd hvel hc,
    rfl, rfl, ⟨le_trans (by decide) lat1, le_trans lat2 (by decide)⟩,
    ⟨le_trans (by decide) lon1, le_trans lon2 (by decide)⟩, ?_, ?_, ?_, ?_⟩
  · exact ralt.1.symm
  · exact rvn.1.symm
  · exact rve.1.symm
  · exact rvd.1.symm

/-- The timestamp of the southern-hemisphere sample converts to 1000000 microseconds. -/
theorem cruiseSample_time :
    toUInt64 (dmul (cruiseSample ℝ).elapsed_sec 1e6) = some 1000000 := by
  have e : (cruiseSample ℝ).elapsed_sec = 1 := rfl
  rw [e, dmul_second]
  apply toIntegral_eq_of_nonneg <;> norm_num

/-- C12, amended, at a concrete input: the sample at latitude 0.29 (the `double`), longitude
-122.5 and altitude 855 ft, moving at 100 ft/s north, 50 ft/s west and 5 ft/s down. -/
theorem setGPSMsg_position_fields_witness :
    ∃ st', setGPSMsg CMath.real (blankState 0 0) (roundingSample ℝ) = some st' ∧
      st'.hil_gps_msg.lat = 2900000 ∧ st'.hil_gps_msg.lon = -1225000000 ∧
      st'.hil_gps_msg.alt = 260603 ∧ st'.hil_gps_msg.vn = 3048 ∧
      st'.hil_gps_msg.ve = -1524 ∧ st'.hil_gps_msg.vd = 152 := by
  obtain ⟨ct, clat, clon, calt, cvn, cve, cvd⟩ := roundingSample_conversions
  obtain ⟨st', h, hlat, hlon, -, -, halt, hvn, hve, hvd⟩ :=
    setGPSMsg_position_fields (blankState 0 0) (roundingSample ℝ) 290000 260603 3048 (-1524) 152
      (by norm_num [roundingSample]) (by norm_num [roundingSample]) ct calt cvn cve cvd
      (by decide)
  have e1 := ((toIntegral_some_iff _ _ _ _).mp clat).1
  have e2 := ((toIntegral_some_iff _ _ _ _).mp clon).1
  have e3 := ((toIntegral_some_iff _ _ _ _).mp calt).1
  have e4 := ((toIntegral_some_iff _ _ _ _).mp cvn).1
  have e5 := ((toIntegral_some_iff _ _ _ _).mp cve).1
  have e6 := ((toIntegral_some_iff _ _ _ _).mp cvd).1
  exact ⟨st', h, hlat.trans e1, hlon.trans e2, halt.trans e3, hvn.trans e4, hve.trans e5,
    hvd.trans e6⟩

section Frames

variable {F : Type} [LinearOrderedField F] [FloorRing F]

/-- The conversion of a timestamp between 0 and 2^64 microseconds is defined. -/
theorem toUInt64_of_range (x : F) (h0 : 0 ≤ x) (h1 : x < 18446744073709551616) :
    toUInt64 x = some (truncToInt x) ∧ 0 ≤ truncToInt x := by
  have hf : truncToInt x = ⌊x⌋ := by
    unfold truncToInt
    rw [if_pos h0]
  have hf0 : 0 ≤ ⌊x⌋ := Int.floor_nonneg.mpr h0
  have hf1 : ⌊x⌋ < 18446744073709551616 := Int.floor_lt.mpr (by exact_mod_cast h1)
  refine ⟨(toIntegral_some_iff _ _ _ _).mpr ⟨rfl, ?_, ?_⟩, ?_⟩ <;> rw [hf] <;> omega

omit [FloorRing F] in
/-- The call `setPXControls` changes nothing but the control outputs. -/
theorem setPXControls_frame (st st' : VehicleState F)
    (controls : mavlink_hil_actuator_controls_t F) (h : setPXControls st controls = some st') :
    st'.gen = st.gen ∧ st'.sensor_msg = st.sensor_msg ∧ st'.hil_gps_msg = st.hil_gps_msg ∧
      st'.lastTime = st.lastTime := by
  unfold setPXControls at h
  rw [Option.map_eq_some'] at h
  obtain ⟨fg, -, rfl⟩ := h
  exact ⟨rfl, rfl, rfl, rfl⟩

/-- The two records a call of `setFGData` stores: the sensor record of `setSensorMsg` and the
position record of `setGPSMsg`, each called on the sample. -/
theorem setFGData_records (L : CMath F) (G : GeoMag F) (st : VehicleState F)
    (fgData : fgOutputData F) :
    (setFGData L G st fgData).map (fun r => (r.1.sensor_msg, r.1.hil_gps_msg)) =
      ((setSensorMsg L G st fgData).map fun s => s.sensor_msg).bind fun a =>
        ((setGPSMsg L st fgData).map fun s => s.hil_gps_msg).map fun b => (a, b) := by
  rw [setFGData_eq, setSensorMsg_record, setSensorMsg_record]
  cases toUInt64 (dmul fgData.elapsed_sec 1e6) with
  | none => rfl
  | some t =>
    simp only [Option.map_some', Option.some_bind, Option.map_map]
    cases h : setGPSMsg L st fgData with
    | none =>
      cases h' : setGPSMsg L _ fgData with
      | none => rfl
      | some s' =>
        rw [setGPSMsg_transfer L _ st s' fgData h'] at h
        cases h
    | some s =>
      rw [setGPSMsg_transfer L st _ s fgData h]
      rfl

/-- The sensor record of `setSensorMsg` is the same in two states that agree on the generator
and on the noise standard deviations. -/
theorem setSensorMsg_sameNoiseSource (L : CMath F) (G : GeoMag F) (st st' : VehicleState F)
    (fgData : fgOutputData F) (h : sameNoiseSource st st') :
    (setSensorMsg L G st fgData).map (fun s => s.sensor_msg) =
      (setSensorMsg L G st' fgData).map (fun s => s.sensor_msg) := by
  obtain ⟨h0, h1, h2, h3, h4, h5, h6, h7⟩ := h
  rw [setSensorMsg_record, setSensorMsg_record, Option.map_map, Option.map_map]
  simp only [Function.comp_def, h0, h1, h2, h3, h4, h5, h6, h7]

/-- After a defined call of `setFGData` both records hold the converted timestamp. -/
theorem setFGData_time_usec (L : CMath F) (G : GeoMag F) (st st' : VehicleState F)
    (tr : FGTrace F) (fgData : fgOutputData F) (t : Int)
    (ht : toUInt64 (dmul fgData.elapsed_sec 1e6) = some t)
    (h : setFGData L G st fgData = some (st', tr)) :
    st'.sensor_msg.time_usec = t ∧ st'.hil_gps_msg.time_usec = t := by
  rw [setFGData_eq, setSensorMsg_record, ht] at h
  simp only [Option.map_some', Option.some_bind, Option.map_eq_some', Prod.mk.injEq] at h
  obtain ⟨s3, h3, rfl, -⟩ := h
  obtain ⟨t', lat, lon, alt, vn, ve, vd, vel, cog, ht', -, -, -, -, -, -, -, -, rfl⟩ :=
    setGPSMsg_some_inv L _ s3 fgData h3
  rw [ht] at ht'
  cases ht'
  exact ⟨rfl, rfl⟩

/-- C13, amended: for every sample with `elapsed_sec ≥ 0` whose `double` product
`elapsed_sec * 1e6` (`dmul`: the exact product rounded to the nearest `double`) is below
`2^64`, the conversion of the timestamp is defined, `setSensorMsg` stores it, and after
`setFGData` (defined when the other fields of the position record fit their types) the sensor
record and the position record carry the same timestamp, that `double` product truncated to
an integer. -/
theorem setFGData_timestamps (L : CMath F) (G : GeoMag F) (st : VehicleState F)
    (fgData : fgOutputData F) (h0 : 0 ≤ fgData.elapsed_sec)
    (h1 : dmul fgData.elapsed_sec 1e6 < 18446744073709551616) :
    toUInt64 (dmul fgData.elapsed_sec 1e6) = some (truncToInt (dmul fgData.elapsed_sec 1e6)) ∧
    (∃ s, setSensorMsg L G st fgData = some s ∧
      s.sensor_msg.time_usec = truncToInt (dmul fgData.elapsed_sec 1e6)) ∧
    ∀ st' tr, setFGData L G st fgData = some (st', tr) →
      st'.sensor_msg.time_usec = truncToInt (dmul fgData.elapsed_sec 1e6) ∧
      st'.hil_gps_msg.time_usec = truncToInt (dmul fgData.elapsed_sec 1e6) := by
  have hx : 0 ≤ dmul fgData.elapsed_sec 1e6 :=
    roundDouble_nonneg _ (mul_nonneg h0 (by norm_num))
  obtain ⟨hc, -⟩ := toUInt64_of_range _ hx h1
  refine ⟨hc, ?_, ?_⟩
  · rw [setSensorMsg_record, hc]
    exact ⟨_, rfl, rfl⟩
  · intro st' tr h
    exact setFGData_time_usec L G st st' tr fgData _ hc h

/-- C16: with the generator a stream of samples, `setSensorMsg` consumes thirteen samples,
one for each channel in the order `xacc`, `yacc`, `zacc`, `xgyro`, `ygyro`, `zgyro`, `xmag`,
`ymag`, `zmag`, `temperature`, `abs_pressure`, `pressure_alt`, `diff_pressure`; `setGPSMsg` and
`setPXControls` leave the generator as it is. -/
theorem generator_consumption :
    (∀ (L : CMath F) (G : GeoMag F) (st : VehicleState F) (fgData : fgOutputData F),
      setSensorMsg L G st fgData =
        (toUInt64 (dmul fgData.elapsed_sec 1e6)).map fun t =>
          { st with
            gen := fun n => st.gen (n + 13)
            sensor_msg :=
              { time_usec := t
                xacc := ftToM fgData.accelX_fps + st.acc_nois * st.gen 0
                yacc := ftToM fgData.accelY_fps + st.acc_nois * st.gen 1
                zacc := ftToM fgData.accelZ_fps + st.acc_nois * st.gen 2
                xgyro := (getGyro L fgData).x + st.gyro_nois * st.gen 3
                ygyro := (getGyro L fgData).y + st.gyro_nois * st.gen 4
                zgyro := (getGyro L fgData).z + st.gyro_nois * st.gen 5
                xmag := (getMagneticField L G fgData).x + st.mag_nois * st.gen 6
                ymag := (getMagneticField L G fgData).y + st.mag_nois * st.gen 7
                zmag := (getMagneticField L G fgData).z + st.mag_nois * st.gen 8
                temperature := fgData.temperature_degc + st.temp_nois * st.gen 9
                abs_pressure :=
                  fgData.pressure_inhg * 3386.39 / 100.0 + st.abs_pressure_nois * st.gen 10
                pressure_alt := ftToM fgData.pressure_alt_ft + st.baro_alt_nois * st.gen 11
                diff_pressure :=
                  (fgData.measured_total_pressure_inhg - fgData.pressure_inhg) * 3386.39 /
                    100.0 + st.diff_pressure_nois * st.gen 12
                fields_updated := 0x1FFF } }) ∧
    (∀ (L : CMath F) (st st' : VehicleState F) (fgData : fgOutputData F),
      setGPSMsg L st fgData = some st' → st'.gen = st.gen) ∧
    (∀ (st st' : VehicleState F) (controls : mavlink_hil_actuator_controls_t F),
      setPXControls st controls = some st' → st'.gen = st.gen) :=
  ⟨fun L G st fgData => setSensorMsg_record L G st fgData,
    fun L st st' fgData h => (setGPSMsg_frame L st st' fgData h).2.2,
    fun st st' controls h => (setPXControls_frame st st' controls h).1⟩

/-- C17: for any two states that agree on the generator and on the noise standard deviations,
whatever their `lastTime`, their previous records and their control outputs, `setFGData` on
one sample yields the same sensor record and the same position record; `setFGData` leaves
`FGControls` as it is, and `setPXControls` leaves the two records and `lastTime` as they
are. -/
theorem setFGData_depends_on_noise_source_only (L : CMath F) (G : GeoMag F)
    (st st' : VehicleState F) (fgData : fgOutputData F) (h : sameNoiseSource st st') :
    (setFGData L G st fgData).map (fun r => (r.1.sensor_msg, r.1.hil_gps_msg)) =
      (setFGData L G st' fgData).map (fun r => (r.1.sensor_msg, r.1.hil_gps_msg)) ∧
    (∀ s tr, setFGData L G st fgData = some (s, tr) → s.FGControls = st.FGControls) ∧
    (∀ s (controls : mavlink_hil_actuator_controls_t F),
      setPXControls st controls = some s →
      s.sensor_msg = st.sensor_msg ∧ s.hil_gps_msg = st.hil_gps_msg ∧
        s.lastTime = st.lastTime) := by
  refine ⟨?_, ?_, ?_⟩
  · rw [setFGData_records, setFGData_records, setSensorMsg_sameNoiseSource L G st st' fgData h,
      setGPSMsg_map_eq L st st' fgData]
  · intro s tr hs
    rw [setFGData_eq, setSensorMsg_record] at hs
    simp only [Option.map_eq_some', Option.bind_eq_some, Prod.mk.injEq] at hs
    obtain ⟨s3, ⟨s2, ⟨t, -, rfl⟩, h3⟩, rfl, -⟩ := hs
    obtain ⟨t', lat, lon, alt, vn, ve, vd, vel, cog, -, -, -, -, -, -, -, -, -, rfl⟩ :=
      setGPSMsg_some_inv L _ s3 fgData h3
    rfl
  · intro s controls hs
    exact (setPXControls_frame st s controls hs).2

end Frames

/-- The call `setFGData` is defined on the sample at 0.29 seconds, in every state. -/
theorem setFGData_roundingSample_defined (st : VehicleState ℝ) :
    ∃ st' tr, setFGData CMath.real (flatGeoMag ℝ) st (roundingSample ℝ) = some (st', tr) := by
  obtain ⟨s2, h2, -⟩ := setSensorMsg_some CMath.real (flatGeoMag ℝ)
    { st with lastTime := (roundingSample ℝ).elapsed_sec } (roundingSample ℝ) 290000
    roundingSample_conversions.1
  obtain ⟨s3, h3, -⟩ := setGPSMsg_roundingSample s2
  rw [setFGData_eq, h2]
  simp only [Option.some_bind]
  rw [h3]
  exact ⟨_, _, rfl⟩

/-- C13, as stated, fails: on the sample whose `elapsed_sec` is the `double` nearest to 0.29
(a little below 0.29, and not negative) `elapsed_sec * 1000000` is 289999.99999999998 and
truncates to 289999, while `setFGData` stores the timestamp 290000 in both records: the
product it truncates is the rounded `double` product, 290000. -/
theorem setFGData_timestamp_rounding :
    0 ≤ (roundingSample ℝ).elapsed_sec ∧
    truncToInt ((roundingSample ℝ).elapsed_sec * 1e6) = 289999 ∧
    ∃ st' tr,
      setFGData CMath.real (flatGeoMag ℝ) (blankState 0 0) (roundingSample ℝ) =
        some (st', tr) ∧
      st'.sensor_msg.time_usec = 290000 ∧ st'.hil_gps_msg.time_usec = 290000 := by
  obtain ⟨st', tr, h⟩ := setFGData_roundingSample_defined (blankState 0 0)
  obtain ⟨t1, t2⟩ := setFGData_time_usec CMath.real (flatGeoMag ℝ) (blankState 0 0) st' tr
    (roundingSample ℝ) 290000 roundingSample_conversions.1 h
  refine ⟨by norm_num [roundingSample], ?_, st', tr, h, t1, t2⟩
  apply truncToInt_eq_of_nonneg <;> norm_num [roundingSample]

/-- C18: in exact real arithmetic the nested quaternion construction of `getGyro` is the
closed-form Euler-rate kinematics: with roll `φ`, pitch `θ` and the rates `p0`, `q0`, `r0`
(all after `degToRad`) the result is `(p0 - r0 sin θ, q0 cos φ + r0 cos θ sin φ,
-q0 sin φ + r0 cos θ cos φ)`, for every attitude and every rate triple; so the result does
not depend on the heading. -/
theorem getGyro_euler_rates (fgData : fgOutputData ℝ) (heading : ℝ) :
    getGyro CMath.real fgData =
      ⟨degToRad fgData.rateRoll_degps -
          degToRad fgData.rateYaw_degps * Real.sin (degToRad fgData.pitch_deg),
        degToRad fgData.ratePitch_degps * Real.cos (degToRad fgData.roll_deg) +
          degToRad fgData.rateYaw_degps * Real.cos (degToRad fgData.pitch_deg) *
            Real.sin (degToRad fgData.roll_deg),
        -degToRad fgData.ratePitch_degps * Real.sin (degToRad fgData.roll_deg) +
          degToRad fgData.rateYaw_degps * Real.cos (degToRad fgData.pitch_deg) *
            Real.cos (degToRad fgData.roll_deg)⟩ ∧
    getGyro CMath.real { fgData with heading_deg := heading } = getGyro CMath.real fgData := by
  refine ⟨getGyro_closed fgData, ?_⟩
  rw [getGyro_closed, getGyro_closed]

/-- C19: in exact real arithmetic, for every attitude and every lookup result whose
inclination has a non-zero cosine, the squared norm of the body-frame magnetic field that
`getMagneticField` returns is `strength_ga²` and its Euclidean norm is `|strength_ga|`, where
`strength_ga = 0.01 * get_mag_strength(lat, lon)`. -/
theorem getMagneticField_norm (G : GeoMag ℝ) (fgData : fgOutputData ℝ)
    (hcos : Real.cos (G.get_mag_inclination fgData.latitude_deg fgData.longitude_deg *
      3.14159265 / 180) ≠ 0) :
    (getMagneticField CMath.real G fgData).normSq =
      (0.01 * G.get_mag_strength fgData.latitude_deg fgData.longitude_deg) ^ 2 ∧
    Real.sqrt (getMagneticField CMath.real G fgData).normSq =
      |0.01 * G.get_mag_strength fgData.latitude_deg fgData.longitude_deg| :=
  getMagneticField_normSq G fgData hcos

/-- The inclination of 60 degrees has a positive cosine. -/
theorem tilted_inclination_cos_pos : 0 < Real.cos ((60 : ℝ) * 3.14159265 / 180) := by
  apply Real.cos_pos_of_mem_Ioo
  have := Real.pi_gt_d2
  constructor <;> norm_num <;> linarith

/-- C19, at a concrete input: the lookup with strength 50 and inclination 60 degrees, at roll
30, pitch 10 and heading 45 degrees: the norm of the field is 0.5. -/
theorem getMagneticField_norm_witness :
    Real.sqrt (getMagneticField CMath.real (tiltedGeoMag ℝ) (bankedSample ℝ)).normSq = 0.5 := by
  have h := (getMagneticField_norm (tiltedGeoMag ℝ) (bankedSample ℝ)
    (ne_of_gt tilted_inclination_cos_pos)).2
  rw [h]
  norm_num [tiltedGeoMag, abs_of_pos]

/-- C20: in exact real arithmetic, with roll and pitch zero and the heading `ψ` (after
`degToRad`), `getMagneticField` returns `(H cos (D - ψ), H sin (D - ψ), Z)`, where `D` is the
declination and `I` the inclination in radians, `H = strength_ga * cos I` and `Z = H * tan I`;
when the heading is the declination the result is `(H, 0, Z)`. -/
theorem getMagneticField_level_heading (G : GeoMag ℝ) (fgData : fgOutputData ℝ)
    (hroll : fgData.roll_deg = 0) (hpitch : fgData.pitch_deg = 0) :
    getMagneticField CMath.real G fgData =
      ⟨0.01 * G.get_mag_strength fgData.latitude_deg fgData.longitude_deg *
          Real.cos (G.get_mag_inclination fgData.latitude_deg fgData.longitude_deg *
            3.14159265 / 180) *
          Real.cos (G.get_mag_declination fgData.latitude_deg fgData.longitude_deg *
            3.14159265 / 180 - degToRad fgData.heading_deg),
        0.01 * G.get_mag_strength fgData.latitude_deg fgData.longitude_deg *
          Real.cos (G.get_mag_inclination fgData.latitude_deg fgData.longitude_deg *
            3.14159265 / 180) *
          Real.sin (G.get_mag_declination fgData.latitude_deg fgData.longitude_deg *
            3.14159265 / 180 - degToRad fgData.heading_deg),
        0.01 * G.get_mag_strength fgData.latitude_deg fgData.longitude_deg *
          Real.cos (G.get_mag_inclination fgData.latitude_deg fgData.longitude_deg *
            3.14159265 / 180) *
          Real.tan (G.get_mag_inclination fgData.latitude_deg fgData.longitude_deg *
            3.14159265 / 180)⟩ ∧
    (degToRad fgData.heading_deg =
        G.get_mag_declination fgData.latitude_deg fgData.longitude_deg * 3.14159265 / 180 →
      getMagneticField CMath.real G fgData =
        ⟨0.01 * G.get_mag_strength fgData.latitude_deg fgData.longitude_deg *
            Real.cos (G.get_mag_inclination fgData.latitude_deg fgData.longitude_deg *
              3.14159265 / 180),
          0,
          0.01 * G.get_mag_strength fgData.latitude_deg fgData.longitude_deg *
            Real.cos (G.get_mag_inclination fgData.latitude_deg fgData.longitude_deg *
              3.14159265 / 180) *
            Real.tan (G.get_mag_inclination fgData.latitude_deg fgData.longitude_deg *
              3.14159265 / 180)⟩) := by
  have h := getMagneticField_level G fgData hroll hpitch
  refine ⟨h, fun hψ => ?_⟩
  rw [h, hψ, sub_self, Real.cos_zero, Real.sin_zero, mul_one, mul_zero]

/-- C20, at a concrete input: the lookup with strength 50, declination 10 and inclination 60
degrees, on a level sample with heading 45 degrees. -/
theorem getMagneticField_level_heading_witness :
    getMagneticField CMath.real (tiltedGeoMag ℝ) (headingSample ℝ) =
      ⟨0.01 * 50 * Real.cos (60 * 3.14159265 / 180) *
          Real.cos (10 * 3.14159265 / 180 - degToRad 45),
        0.01 * 50 * Real.cos (60 * 3.14159265 / 180) *
          Real.sin (10 * 3.14159265 / 180 - degToRad 45),
        0.01 * 50 * Real.cos (60 * 3.14159265 / 180) * Real.tan (60 * 3.14159265 / 180)⟩ :=
  (getMagneticField_level_heading (tiltedGeoMag ℝ) (headingSample ℝ) rfl rfl).1

/-- C11, at a concrete input: a constructed state whose generator returns 2 at every call, on
the southern-hemisphere sample. -/
theorem setSensorMsg_scalar_channels_witness :
    ∃ st st',
      VehicleState.construct (blankState (0 : ℝ) 2) (fun _ => 0) 0 [] [] = some st ∧
      setSensorMsg CMath.real (flatGeoMag ℝ) st (cruiseSample ℝ) = some st' ∧
      st'.sensor_msg.xacc = 0.3048 * 1 + 0.0001 * 2 ∧
      st'.sensor_msg.yacc = 0.3048 * 2 + 0.0001 * 2 ∧
      st'.sensor_msg.zacc = 0.3048 * (-32) + 0.0001 * 2 ∧
      st'.sensor_msg.temperature = 15 + 0.01 * 2 ∧
      st'.sensor_msg.abs_pressure = 29.92 * 3386.39 / 100 + 0.05 * 2 ∧
      st'.sensor_msg.diff_pressure = (30.5 - 29.92) * 3386.39 / 100 + 0.01 * 2 ∧
      st'.sensor_msg.pressure_alt = 0.3048 * 1000 + 0.01 * 2 := by
  obtain ⟨st, hst⟩ : ∃ st,
      VehicleState.construct (blankState (0 : ℝ) 2) (fun _ => 0) 0 [] [] = some st :=
    ⟨_, rfl⟩
  obtain ⟨hn, hg⟩ := construct_constructorNoise _ _ _ _ _ st hst
  obtain ⟨st', hs, -⟩ := setSensorMsg_some CMath.real (flatGeoMag ℝ) st (cruiseSample ℝ)
    1000000 cruiseSample_time
  have h := setSensorMsg_scalar_channels CMath.real (flatGeoMag ℝ) st st' (cruiseSample ℝ) hn hs
  rw [hg] at h
  exact ⟨st, st', hst, hs, h⟩

/-- C14, at a concrete input: the southern-hemisphere sample in a blank state. -/
theorem setSensorMsg_fields_updated_witness :
    ∃ st', setSensorMsg CMath.real (flatGeoMag ℝ) (blankState 0 1) (cruiseSample ℝ) = some st' ∧
      st'.sensor_msg.fields_updated = 8191 ∧
      ∀ i, i < 13 → st'.sensor_msg.fields_updated.testBit i = true := by
  obtain ⟨st', hs, -⟩ := setSensorMsg_some CMath.real (flatGeoMag ℝ) (blankState 0 1)
    (cruiseSample ℝ) 1000000 cruiseSample_time
  exact ⟨st', hs, setSensorMsg_fields_updated CMath.real (flatGeoMag ℝ) (blankState 0 1) st'
    (cruiseSample ℝ) hs⟩

/-- C13, amended, at a concrete input: a call of `setFGData` on the sample whose `elapsed_sec`
is the `double` nearest to 0.29 stores the timestamp 290000 in both records. -/
theorem setFGData_timestamps_witness :
    ∃ st' tr,
      setFGData CMath.real (flatGeoMag ℝ) (blankState 0 0) (roundingSample ℝ) =
        some (st', tr) ∧
      st'.sensor_msg.time_usec = 290000 ∧ st'.hil_gps_msg.time_usec = 290000 := by
  obtain ⟨st', tr, h⟩ := setFGData_roundingSample_defined (blankState 0 0)
  have e : dmul (roundingSample ℝ).elapsed_sec 1e6 = 290000 := dmul_time029
  obtain ⟨-, -, hall⟩ := setFGData_timestamps CMath.real (flatGeoMag ℝ) (blankState 0 0)
    (roundingSample ℝ) (by norm_num [roundingSample]) (by rw [e]; norm_num)
  obtain ⟨h1, h2⟩ := hall st' tr h
  have e' : truncToInt (dmul (roundingSample ℝ).elapsed_sec 1e6) = 290000 := by
    rw [e]
    apply truncToInt_eq_of_nonneg <;> norm_num
  exact ⟨st', tr, h, h1.trans e', h2.trans e'⟩

/-- C17, at a concrete input: two states with the same generator and sigmas, one with
`lastTime` 0 and the sample configuration of the actuator mapping, the other with `lastTime`
5 and no configuration, store the same records for the one-second sample, and do store
them. -/
theorem setFGData_depends_on_noise_source_only_witness :
    (setFGData CMath.real (flatGeoMag ℝ) (blankState 0 1) (tickSample ℝ)).map
        (fun r => (r.1.sensor_msg, r.1.hil_gps_msg)) =
      (setFGData CMath.real (flatGeoMag ℝ)
        { blankState 5 1 with controlsCount := 1, FGControls := [3] } (tickSample ℝ)).map
        (fun r => (r.1.sensor_msg, r.1.hil_gps_msg)) ∧
    (setFGData CMath.real (flatGeoMag ℝ) (blankState 0 1) (tickSample ℝ)).isSome = true := by
  refine ⟨(setFGData_depends_on_noise_source_only CMath.real (flatGeoMag ℝ) (blankState 0 1)
    { blankState 5 1 with controlsCount := 1, FGControls := [3] } (tickSample ℝ)
    ⟨rfl, rfl, rfl, rfl, rfl, rfl, rfl, rfl⟩).1, ?_⟩
  obtain ⟨st', tr, h⟩ := setFGData_tick_defined (blankState 0 1)
  rw [h]
  rfl

end Bridge
